import Mathlib

/-!
Verification of the project-bootstrap tool (`create-proyect.py`).

Text is modeled as `List Char`.  Python's `str.replace(old, new)` is
modeled by `replaceAll`, a greedy left-to-right scan that rewrites every
non-overlapping occurrence of `old`, exactly as CPython does for a
non-empty pattern.  Python's substring test (`pat in s`) is modeled by
`occursB`, and `re.search` of the pattern `INSTALLED_APPS = \[.*?\]`
(DOTALL, lazy) by `findAppsBlock` (leftmost literal header, then the
shortest completion up to the first closing bracket).

The tool's configuration prompt, artifact renderers, file patchers and
the `main` orchestration are embedded below, with the filesystem as an
explicit association list so that the skip/abort behavior of each patch
can be stated and settled.
-/

set_option maxRecDepth 8000

namespace CreateProject

/-- Greedy replace-all scanner with explicit fuel.  Fuel at least the
length of the remaining text guarantees the scan finishes, since each
step consumes at least one character of input. -/
def rgo (old new : List Char) : Nat → List Char → List Char
  | 0, l => l
  | _ + 1, [] => []
  | fuel + 1, c :: cs =>
    if !old.isEmpty && old.isPrefixOf (c :: cs) then
      new ++ rgo old new fuel (List.drop old.length (c :: cs))
    else
      c :: rgo old new fuel cs

/-- Python `text.replace(old, new)` for non-empty `old`: every
non-overlapping occurrence, scanned left to right, is rewritten. -/
def replaceAll (old new text : List Char) : List Char :=
  rgo old new text.length text

/-- Python `pat in text` (substring containment test). -/
def occursB (pat : List Char) : List Char → Bool
  | [] => pat.isEmpty
  | c :: cs => pat.isPrefixOf (c :: cs) || occursB pat cs

/-- Index of the leftmost occurrence of `pat`, if any. -/
def firstOcc (pat : List Char) : List Char → Option Nat
  | [] => if pat.isEmpty then some 0 else none
  | c :: cs =>
    if pat.isPrefixOf (c :: cs) then some 0
    else Option.map (· + 1) (firstOcc pat cs)

/-- Number of positions at which `pat` occurs. -/
def countOcc (pat : List Char) : List Char → Nat
  | [] => 0
  | c :: cs => (if pat.isPrefixOf (c :: cs) then 1 else 0) + countOcc pat cs

/-! ## Embedding of `create-proyect.py`

Strings are `List Char`.  `Char.toLower` models Python `str.lower`
(they agree on ASCII, the range all theorems below are instantiated
at).  Python's `str.strip()` default whitespace set is modeled
explicitly. -/

/-- The characters removed by Python `str.strip()`. -/
def isPySpace (c : Char) : Bool :=
  c == ' ' || c == '\t' || c == '\n' || c == '\r' || c == '\x0b' || c == '\x0c'

/-- Python `s.strip()`. -/
def pyStrip (s : List Char) : List Char :=
  ((s.dropWhile isPySpace).reverse.dropWhile isPySpace).reverse

/-- Python `s or dflt` for strings: the default kicks in exactly when
`s` is empty. -/
def orDefault (s dflt : List Char) : List Char :=
  if s = [] then dflt else s

/-- `slug = project_name.lower().replace(" ", "-")` (line 20). -/
def deriveSlug (name : List Char) : List Char :=
  replaceAll [' '] ['-'] (name.map Char.toLower)

/-- Module-level constant `DEFAULT_PORT = "8000"`. -/
def DEFAULT_PORT : List Char := "8000".toList

/-- Module-level constant `DEFAULT_DB_PASSWORD = "password"`. -/
def DEFAULT_DB_PASSWORD : List Char := "password".toList

/-- Module-level constant `DEFAULT_DB_CHOICE = "1"`. -/
def DEFAULT_DB_CHOICE : List Char := "1".toList

inductive DbType
  | postgresql
  | sqlite
deriving DecidableEq

/-- The string interpolated for `config['db_type']`. -/
def dbTypeStr : DbType → List Char
  | .postgresql => "postgresql".toList
  | .sqlite => "sqlite".toList

/-- The configuration dictionary built by `prompt_project_details`
(the fixed `requirements` list is kept as a separate constant). -/
structure Config where
  project_name : List Char
  slug : List Char
  port : List Char
  db_type : DbType
  db_name : List Char
  db_user : List Char
  db_password : List Char
deriving DecidableEq

/-- The raw strings returned by the seven `input()` calls, in order. -/
structure RawInput where
  project_name : List Char
  slug : List Char
  port : List Char
  db_choice : List Char
  db_name : List Char
  db_user : List Char
  db_password : List Char

inductive PromptOutcome
  | missingName
  | ok (cfg : Config)
deriving DecidableEq

/-- `prompt_project_details` (lines 11-61): validation of the project
name, slug derivation, port default, database-choice branch with the
postgres-only credential defaults.  `missingName` models the
`exit(1)` taken when the stripped project name is empty. -/
def promptProjectDetails (inp : RawInput) : PromptOutcome :=
  let project_name := pyStrip inp.project_name
  if project_name = [] then .missingName
  else
    let slugIn := pyStrip inp.slug
    let slug := if slugIn = [] then deriveSlug project_name else slugIn
    let port := orDefault (pyStrip inp.port) DEFAULT_PORT
    let db_choice := orDefault (pyStrip inp.db_choice) DEFAULT_DB_CHOICE
    if db_choice = "1".toList then
      let db_name := orDefault (pyStrip inp.db_name) slug
      let db_user := orDefault (pyStrip inp.db_user) slug
      let db_password := orDefault (pyStrip inp.db_password) DEFAULT_DB_PASSWORD
      .ok ⟨project_name, slug, port, .postgresql, db_name, db_user, db_password⟩
    else
      .ok ⟨project_name, slug, port, .sqlite, [], [], []⟩

/-- The pinned `requirements` list (lines 48-60). -/
def requirementsList : List (List Char) :=
  ["Django==5.1.5".toList, "asgiref==3.8.1".toList, "sqlparse==0.5.3".toList,
   "pytz==2025.1".toList, "django-extensions==3.2.3".toList,
   "psycopg2-binary==2.9.9".toList, "jsonschema==4.23.0".toList,
   "requests==2.32.3".toList, "pytest==8.3.4".toList, "pytest-django==4.9.0".toList,
   "gunicorn==21.2.0".toList]

/-- Python `"\n".join`. -/
def joinLines : List (List Char) → List Char
  | [] => []
  | [l] => l
  | l :: ls => l ++ '\n' :: joinLines ls

/-- The text written to `requirements.txt`. -/
def requirementsContent : List Char := joinLines requirementsList

/-- `create_docker_compose` content (lines 81-131): a structural
branch on the database type with two distinct templates. -/
def createDockerComposeContent (cfg : Config) : List Char :=
  if cfg.db_type = .postgresql then
    "\nversion: \"3.8\"\n\nservices:\n  web:\n    build: .\n    command: bash -c \"python manage.py collectstatic --noinput && python manage.py migrate && gunicorn ".toList ++
    (cfg.slug ++ (".wsgi:application --bind 0.0.0.0:".toList ++
    (cfg.port ++ ("\"\n    volumes:\n      - ./backend:/app/backend\n      - ./static:/app/static\n    ports:\n      - \"".toList ++
    (cfg.port ++ (":".toList ++
    (cfg.port ++ ("\"\n    environment:\n      - PYTHONUNBUFFERED=1\n      - DJANGO_SETTINGS_MODULE=".toList ++
    (cfg.slug ++ (".settings\n    depends_on:\n      - db\n  shell:\n    build: .\n    volumes:\n      - .:/app\n    environment:\n      - DJANGO_SETTINGS_MODULE=".toList ++
    (cfg.slug ++ (".settings\n    command: [\"python\", \"manage.py\", \"shell_plus\"]\n\n  db:\n    image: postgres:13\n    environment:\n      POSTGRES_DB: ".toList ++
    (cfg.db_name ++ ("\n      POSTGRES_USER: ".toList ++
    (cfg.db_user ++ ("\n      POSTGRES_PASSWORD: ".toList ++
    (cfg.db_password ++
    "\n    volumes:\n      - postgres_data:/var/lib/postgresql/data/\n\nvolumes:\n  postgres_data:\n".toList)))))))))))))))))
  else
    "\nversion: \"3.8\"\n\nservices:\n  web:\n    build: .\n    command: gunicorn ".toList ++
    (cfg.slug ++ (".wsgi:application --bind 0.0.0.0:".toList ++
    (cfg.port ++ ("\n    volumes:\n      - .:/app\n    ports:\n      - \"".toList ++
    (cfg.port ++ (":".toList ++
    (cfg.port ++
    "\"\n".toList)))))))

/-- `create_dockerfile` content (lines 139-163): a single template
parameterized by port and slug only. -/
def createDockerfileContent (cfg : Config) : List Char :=
  "\nFROM python:3.11\n\nWORKDIR /app\n\n# Instalar dependencias del sistema\nRUN apt-get update && apt-get install -y \\\n    build-essential \\\n    && rm -rf /var/lib/apt/lists/*\n\n# Copiar requirements e instalar dependencias de Python\nCOPY requirements.txt .\nRUN pip install --no-cache-dir -r requirements.txt\n\n# Copiar solo el backend\nCOPY backend /app/backend\n\nWORKDIR /app/backend\n\nRUN python manage.py collectstatic --noinput\n\nEXPOSE ".toList ++
  (cfg.port ++ ("\n\nCMD [\"gunicorn\", \"backend.".toList ++
  (cfg.slug ++ (".wsgi:application\", \"--bind\", \"0.0.0.0:".toList ++
  (cfg.port ++
  "\"]\n".toList)))))

/-- `create_readme` content (lines 171-182). -/
def createReadmeContent (cfg : Config) : List Char :=
  "\n# ".toList ++
  (cfg.project_name ++ ("\n\nEste es un proyecto base generado automáticamente.\n\n## Configuración\n\n- **Nombre del Proyecto:** ".toList ++
  (cfg.project_name ++ ("\n- **Slug:** ".toList ++
  (cfg.slug ++ ("\n- **Puerto:** ".toList ++
  (cfg.port ++ ("\n- **Base de Datos:** ".toList ++
  (dbTypeStr cfg.db_type ++
  "\n".toList)))))))))

/-- Substring tested by `"INSTALLED_APPS" not in settings_content`. -/
def IA_MARK : List Char := "INSTALLED_APPS".toList

/-- Substring tested by `"django_extensions" in settings_content`
(the already-applied guard of the settings patch). -/
def DE_MARK : List Char := "django_extensions".toList

/-- Literal head of the regex `INSTALLED_APPS = \[.*?\]`. -/
def IA_HEADER : List Char := "INSTALLED_APPS = [".toList

/-- `re.search(r"INSTALLED_APPS = \[.*?\]", content, re.DOTALL)`: the
leftmost occurrence of the literal header followed by the shortest
completion up to the first closing bracket.  (If no bracket follows
the leftmost header, no later header has one either, so the regex
fails to match anywhere.) -/
def findAppsBlock (c : List Char) : Option (List Char) :=
  match firstOcc IA_HEADER c with
  | none => none
  | some i =>
    let rest := List.drop (i + IA_HEADER.length) c
    match firstOcc ([']']) rest with
    | none => none
    | some j => some (IA_HEADER ++ List.take (j + 1) rest)

/-- The replacement text `new_installed_apps` (lines 221-236). -/
def NEW_APPS : List Char :=
  "\nAPPS = [\n    'django.contrib.admin',\n    'django.contrib.auth',\n    'django.contrib.contenttypes',\n    'django.contrib.sessions',\n    'django.contrib.messages',\n    'django.contrib.staticfiles',\n]\n\nTHIRD_APPS = [\n    'django_extensions',\n]\n\nINSTALLED_APPS = APPS + THIRD_APPS\n".toList

/-- Engine-swap pattern (line 246). -/
def ENGINE_OLD : List Char := "        'ENGINE': 'django.db.backends.sqlite3',".toList

/-- Engine-swap replacement (line 247). -/
def ENGINE_NEW : List Char := "        'ENGINE': 'django.db.backends.postgresql',".toList

/-- Connection-parameters pattern (line 251). -/
def NAME_OLD : List Char := "        'NAME': BASE_DIR / 'db.sqlite3',".toList

/-- Connection-parameters replacement (lines 252-256), interpolating
the configured credentials. -/
def nameNew (cfg : Config) : List Char :=
  "        'NAME': '".toList ++
  (cfg.db_name ++ ("',\n        'USER': '".toList ++
  (cfg.db_user ++ ("',\n        'PASSWORD': '".toList ++
  (cfg.db_password ++
  "',\n        'HOST': 'db',\n        'PORT': 5432".toList)))))

/-- `WSGI_APPLICATION` rewrite pattern (line 261). -/
def wsgiAppOld (slug : List Char) : List Char :=
  "WSGI_APPLICATION = '".toList ++ (slug ++ ".wsgi.application'".toList)

/-- `WSGI_APPLICATION` rewrite replacement (line 262). -/
def wsgiAppNew (slug : List Char) : List Char :=
  "WSGI_APPLICATION = 'backend.".toList ++ (slug ++ ".wsgi.application'".toList)

/-- Static-asset root pattern (line 267). -/
def STATIC_OLD : List Char := "STATIC_URL = 'static/'".toList

/-- Static-asset root replacement (line 268): the original line with
the root declaration appended after it. -/
def STATIC_NEW : List Char :=
  "STATIC_URL = 'static/'\nSTATIC_ROOT = '/app/static'".toList

/-- Entry-point module-path pattern (lines 287 and 302; wsgi.py and
asgi.py use the identical text). -/
def envOld (slug : List Char) : List Char :=
  "os.environ.setdefault('DJANGO_SETTINGS_MODULE', '".toList ++
  (slug ++ ".settings')".toList)

/-- Entry-point module-path replacement (lines 288 and 303). -/
def envNew (slug : List Char) : List Char :=
  "os.environ.setdefault('DJANGO_SETTINGS_MODULE', 'backend.".toList ++
  (slug ++ ".settings')".toList)

/-- Distinguishable outcomes of one patch attempt, mirroring the
distinct printed messages and control paths of the source. -/
inductive PatchResult
  | applied
  | skippedMissingTarget
  | failedRead
  | skippedNoInstalledApps
  | skippedAlreadyApplied
  | skippedNoAppsBlock
deriving DecidableEq

/-- The pure content transformation of `update_settings_py`
(lines 204-269): guard on `INSTALLED_APPS` presence, the
already-applied guard on `django_extensions`, the regex search, then —
in source order — the application-list injection, the engine and
connection-parameter swaps (postgres only), the `WSGI_APPLICATION`
rewrite and the static-root addition. -/
def updateSettingsContent (cfg : Config) (c : List Char) : PatchResult × List Char :=
  if occursB IA_MARK c then
    if occursB DE_MARK c then (.skippedAlreadyApplied, c)
    else
      match findAppsBlock c with
      | none => (.skippedNoAppsBlock, c)
      | some block =>
        let c1 := replaceAll block NEW_APPS c
        let c2 :=
          if cfg.db_type = .postgresql then
            replaceAll NAME_OLD (nameNew cfg) (replaceAll ENGINE_OLD ENGINE_NEW c1)
          else c1
        let c3 := replaceAll (wsgiAppOld cfg.slug) (wsgiAppNew cfg.slug) c2
        let c4 := replaceAll STATIC_OLD STATIC_NEW c3
        (.applied, c4)
  else (.skippedNoInstalledApps, c)

/-- The pure content transformation of `update_wsgi_py` (line 286). -/
def updateWsgiContent (cfg : Config) (c : List Char) : List Char :=
  replaceAll (envOld cfg.slug) (envNew cfg.slug) c

/-- The pure content transformation of `update_asgi_py` (line 301):
textually identical to the wsgi one. -/
def updateAsgiContent (cfg : Config) (c : List Char) : List Char :=
  replaceAll (envOld cfg.slug) (envNew cfg.slug) c

/-- A file on disk: present with readable content, or present but
raising `IOError` on read. -/
inductive FileEntry
  | good (content : List Char)
  | unreadable
deriving DecidableEq

/-- Filesystem: association list of files (later writes shadow earlier
entries) plus the set of created directories. -/
structure FS where
  files : List (List Char × FileEntry)
  dirs : List (List Char)
deriving DecidableEq

def lookupFile (fs : FS) (p : List Char) : Option FileEntry :=
  (fs.files.find? (fun e => e.1 == p)).map (fun e => e.2)

def fsWrite (fs : FS) (p content : List Char) : FS :=
  { fs with files := (p, .good content) :: fs.files }

def fsExists (fs : FS) (p : List Char) : Bool :=
  (lookupFile fs p).isSome

def addDir (fs : FS) (d : List Char) : FS :=
  { fs with dirs := d :: fs.dirs }

inductive IOErr
  | fileNotFound (p : List Char)
  | ioError (p : List Char)
deriving DecidableEq

/-- `os.path.join(folder, "backend", slug, "settings.py")` with
`folder = slug`. -/
def settingsPath (cfg : Config) : List Char :=
  cfg.slug ++ ("/backend/".toList ++ (cfg.slug ++ "/settings.py".toList))

def wsgiPath (cfg : Config) : List Char :=
  cfg.slug ++ ("/backend/".toList ++ (cfg.slug ++ "/wsgi.py".toList))

def asgiPath (cfg : Config) : List Char :=
  cfg.slug ++ ("/backend/".toList ++ (cfg.slug ++ "/asgi.py".toList))

def requirementsPath (cfg : Config) : List Char :=
  cfg.slug ++ "/requirements.txt".toList

def composePath (cfg : Config) : List Char :=
  cfg.slug ++ "/docker-compose.yml".toList

def dockerfilePath (cfg : Config) : List Char :=
  cfg.slug ++ "/Dockerfile".toList

def readmePath (cfg : Config) : List Char :=
  cfg.slug ++ "/README.md".toList

/-- `update_settings_py` at the file level (lines 188-278): existence
check, read with `IOError` caught (both non-fatal early returns), then
the content transformation and the write-back.  Every path returns
normally — this function never propagates an exception. -/
def updateSettingsFile (cfg : Config) (fs : FS) : PatchResult × FS :=
  let p := settingsPath cfg
  match lookupFile fs p with
  | none => (.skippedMissingTarget, fs)
  | some .unreadable => (.failedRead, fs)
  | some (.good c) =>
    match updateSettingsContent cfg c with
    | (.applied, c') => (.applied, fsWrite fs p c')
    | (r, _) => (r, fs)

/-- `update_wsgi_py` at the file level (lines 280-293): the file is
opened with no existence check and no exception handler, so a missing
or unreadable target propagates and aborts the caller. -/
def updateWsgiFile (cfg : Config) (fs : FS) : Except IOErr FS :=
  let p := wsgiPath cfg
  match lookupFile fs p with
  | none => .error (.fileNotFound p)
  | some .unreadable => .error (.ioError p)
  | some (.good c) => .ok (fsWrite fs p (updateWsgiContent cfg c))

/-- `update_asgi_py` at the file level (lines 295-308). -/
def updateAsgiFile (cfg : Config) (fs : FS) : Except IOErr FS :=
  let p := asgiPath cfg
  match lookupFile fs p with
  | none => .error (.fileNotFound p)
  | some .unreadable => .error (.ioError p)
  | some (.good c) => .ok (fsWrite fs p (updateAsgiContent cfg c))

/-- `main` after config collection (lines 320-330): directory
creation, the external generator (an opaque `gen : FS → FS`, its exit
status never inspected), the artifact writes and the patch sequence.
Returns the final filesystem, the settings-patch result, and the
uncaught exception (if any) that aborted the run. -/
def runMain (cfg : Config) (gen : FS → FS) (fs0 : FS) : FS × PatchResult × Option IOErr :=
  let fs1 := addDir (addDir (addDir (addDir fs0 cfg.slug)
    (cfg.slug ++ "/backend".toList)) (cfg.slug ++ "/docs".toList))
    (cfg.slug ++ "/data".toList)
  let fs2 := gen fs1
  let fs3 := fsWrite fs2 (requirementsPath cfg) requirementsContent
  match updateSettingsFile cfg fs3 with
  | (rs, fs4) =>
    match updateWsgiFile cfg fs4 with
    | .error e => (fs4, rs, some e)
    | .ok fs5 =>
      match updateAsgiFile cfg fs5 with
      | .error e => (fs5, rs, some e)
      | .ok fs6 =>
        let fs7 := fsWrite fs6 (composePath cfg) (createDockerComposeContent cfg)
        let fs8 := fsWrite fs7 (dockerfilePath cfg) (createDockerfileContent cfg)
        let fs9 := fsWrite fs8 (readmePath cfg) (createReadmeContent cfg)
        (fs9, rs, none)

/-- Observable outcome of the whole process: `exitedValidation` is the
`exit(1)` on a missing project name (non-zero exit before any
filesystem access); otherwise the run proceeds and either completes or
is aborted by an uncaught exception. -/
inductive Outcome
  | exitedValidation
  | completed (err : Option IOErr)
deriving DecidableEq

/-- `main` (lines 317-330), from raw prompt input. -/
def runProgram (inp : RawInput) (gen : FS → FS) (fs0 : FS) : FS × Outcome :=
  match promptProjectDetails inp with
  | .missingName => (fs0, .exitedValidation)
  | .ok cfg =>
    match runMain cfg gen fs0 with
    | (fs, _, err) => (fs, .completed err)


/-! ## Auxiliary definitions for stating the claims -/

/-- Split a text into its lines (separator `'\n'`, boundaries kept:
`n` newlines give `n + 1` lines). -/
def splitOnNl : List Char → List (List Char)
  | [] => [[]]
  | c :: cs =>
    match splitOnNl cs with
    | [] => [[]]
    | l :: ls => if c = '\n' then [] :: l :: ls else (c :: l) :: ls

/-- Fuse two line lists across a concatenation seam: the last line of
the first list continues into the first line of the second. -/
def fuse : List (List Char) → List (List Char) → List (List Char)
  | [], ys => ys
  | [x], [] => [x]
  | [x], y :: ys => (x ++ y) :: ys
  | x :: x' :: xs, ys => x :: fuse (x' :: xs) ys

/-- A line that introduces an indent-2 block entry (`"  name:"`): two
spaces, a non-space, and a trailing colon.  In the orchestration file
these are exactly the service definitions under `services:` plus the
named-volume entry under a top-level `volumes:`. -/
def isSvcLineB (l : List Char) : Bool :=
  match l.take 3 with
  | [' ', ' ', c] =>
    if c == ' ' then false
    else l.getLast? == some ':'
  | _ => false

/-- Sufficient conditions for `replaceAll old new` to be idempotent on
every text: the pattern does not occur in the replacement, the
replacement is at least as long as the pattern, no non-empty proper
suffix of the pattern prefixes the replacement and no non-empty proper
suffix of the replacement prefixes the pattern.  All conditions are
decidable and checked by `decide` at the configurations used. -/
def ReplaceIdemOk (old new : List Char) : Prop :=
  old ≠ [] ∧ old.length ≤ new.length ∧ ¬ old <:+: new ∧
  (∀ j, j < old.length → 0 < j → ¬ List.drop j old <+: new) ∧
  (∀ k, k < new.length → 0 < k → ¬ List.drop k new <+: old)

instance (old new : List Char) : Decidable (ReplaceIdemOk old new) := by
  unfold ReplaceIdemOk
  infer_instance

/-- `sub` and `old` cannot overlap in any text: neither contains the
other and no non-empty proper suffix of one prefixes the other.  Under
this condition an occurrence of `sub` survives `replaceAll old new`. -/
def NoOverlap (sub old : List Char) : Prop :=
  ¬ sub <:+: old ∧ ¬ old <:+: sub ∧
  (∀ j, j < sub.length → 0 < j → ¬ List.drop j sub <+: old) ∧
  (∀ k, k < old.length → 0 < k → ¬ List.drop k old <+: sub)

instance (sub old : List Char) : Decidable (NoOverlap sub old) := by
  unfold NoOverlap
  infer_instance

/-! ## Concrete data used by witnesses and counterexamples -/

/-- Configuration of end-to-end scenario A (`project_name = "Demo"`,
blank slug and port, database choice `"2"`). -/
def demoCfg : Config :=
  ⟨"Demo".toList, "demo".toList, "8000".toList, DbType.sqlite, [], [], []⟩

/-- Configuration of end-to-end scenario B (`project_name = "Shop"`,
slug `"shop"`, port `"9000"`, database choice `"1"`, blank
credentials). -/
def shopCfg : Config :=
  ⟨"Shop".toList, "shop".toList, "9000".toList, DbType.postgresql,
   "shop".toList, "shop".toList, "password".toList⟩

/-- A miniature generated `settings.py` containing every fragment the
patches target. -/
def sampleSettings : List Char :=
  ("BASE_DIR = Path(__file__)\n\nINSTALLED_APPS = [\n    'django.contrib.admin',\n    'django.contrib.staticfiles',\n]\n\nDATABASES = \x7b\n    'default': \x7b\n        'ENGINE': 'django.db.backends.sqlite3',\n        'NAME': BASE_DIR / 'db.sqlite3',\n    \x7d\n\x7d\n\nWSGI_APPLICATION = 'demo.wsgi.application'\n\nSTATIC_URL = 'static/'\n").toList

/-- A miniature generated `wsgi.py`. -/
def wsgiSample : List Char :=
  ("import os\nos.environ.setdefault('DJANGO_SETTINGS_MODULE', 'demo.settings')\napplication = get_wsgi_application()\n").toList

/-- A miniature generated `asgi.py`. -/
def asgiSample : List Char :=
  ("import os\nos.environ.setdefault('DJANGO_SETTINGS_MODULE', 'demo.settings')\napplication = get_asgi_application()\n").toList

/-- A settings file in which the static-URL line occurs twice. -/
def doubleStatic : List Char :=
  ("INSTALLED_APPS = [\n]\nSTATIC_URL = 'static/'\nSTATIC_URL = 'static/'\n").toList

/-- Generator output with `settings.py` and `asgi.py` present but
`wsgi.py` missing. -/
def fsNoWsgi : FS :=
  ⟨[(settingsPath demoCfg, .good sampleSettings),
    (asgiPath demoCfg, .good asgiSample)], []⟩

/-- Generator output with `wsgi.py` and `asgi.py` present but
`settings.py` missing. -/
def fsNoSettings : FS :=
  ⟨[(wsgiPath demoCfg, .good wsgiSample),
    (asgiPath demoCfg, .good asgiSample)], []⟩

/-- Generator output in which reading `settings.py` raises `IOError`
while the entry points are intact. -/
def fsBadSettings : FS :=
  ⟨[(settingsPath demoCfg, .unreadable),
    (wsgiPath demoCfg, .good wsgiSample),
    (asgiPath demoCfg, .good asgiSample)], []⟩

/-- Generator output in which reading `wsgi.py` raises `IOError`. -/
def fsBadWsgi : FS :=
  ⟨[(settingsPath demoCfg, .good sampleSettings),
    (wsgiPath demoCfg, .unreadable),
    (asgiPath demoCfg, .good asgiSample)], []⟩

/-- An empty filesystem. -/
def emptyFS : FS := ⟨[], []⟩

/-- Prompt answers with an unrecognized database choice. -/
def inpChoice3 : RawInput :=
  ⟨"Demo".toList, [], [], "3".toList, [], [], []⟩

/-- Prompt answers whose project name is blank after stripping. -/
def inpBlankName : RawInput :=
  ⟨"   ".toList, "x".toList, [], [], [], [], []⟩

/-! ## Theorems -/

theorem rgo_fuel_stable (old new : List Char) :
    ∀ f₁ f₂ l, l.length ≤ f₁ → l.length ≤ f₂ →
      rgo old new f₁ l = rgo old new f₂ l := by
  intro f₁
  induction f₁ with
  | zero =>
    intro f₂ l h₁ _
    have hl : l = [] := List.eq_nil_of_length_eq_zero (Nat.le_zero.mp h₁)
    subst hl
    cases f₂ <;> rfl
  | succ f ih =>
    intro f₂ l h₁ h₂
    cases l with
    | nil => cases f₂ <;> rfl
    | cons c cs =>
      cases f₂ with
      | zero => simp at h₂
      | succ f₂ =>
        simp only [rgo]
        by_cases hb : (!old.isEmpty && old.isPrefixOf (c :: cs)) = true
        · rw [if_pos hb, if_pos hb]
          have hone : 1 ≤ old.length := by
            rcases old with _ | _
            · simp at hb
            · simp
          have hlen : (List.drop old.length (c :: cs)).length ≤ f := by
            simp only [List.length_drop, List.length_cons]
            simp only [List.length_cons] at h₁
            omega
          have hlen₂ : (List.drop old.length (c :: cs)).length ≤ f₂ := by
            simp only [List.length_drop, List.length_cons]
            simp only [List.length_cons] at h₂
            omega
          rw [ih f₂ _ hlen hlen₂]
        · rw [if_neg hb, if_neg hb]
          have hcs : cs.length ≤ f := by simp only [List.length_cons] at h₁; omega
          have hcs₂ : cs.length ≤ f₂ := by simp only [List.length_cons] at h₂; omega
          rw [ih f₂ _ hcs hcs₂]

theorem replaceAll_nil (old new : List Char) : replaceAll old new [] = [] := rfl

theorem replaceAll_cons (old new : List Char) (c : Char) (cs : List Char) :
    replaceAll old new (c :: cs) =
      if !old.isEmpty && old.isPrefixOf (c :: cs) then
        new ++ replaceAll old new (List.drop old.length (c :: cs))
      else
        c :: replaceAll old new cs := by
  show rgo old new (cs.length + 1) (c :: cs) = _
  simp only [rgo]
  by_cases hb : (!old.isEmpty && old.isPrefixOf (c :: cs)) = true
  · rw [if_pos hb, if_pos hb]
    have hone : 1 ≤ old.length := by
      rcases old with _ | _
      · simp at hb
      · simp
    have h₁ : (List.drop old.length (c :: cs)).length ≤ cs.length := by
      simp only [List.length_drop, List.length_cons]
      omega
    rw [rgo_fuel_stable old new cs.length (List.drop old.length (c :: cs)).length _ h₁ le_rfl]
    rfl
  · rw [if_neg hb, if_neg hb]
    rfl

theorem occursB_iff (pat l : List Char) : occursB pat l = true ↔ pat <:+: l := by
  induction l with
  | nil =>
    simp only [occursB, List.isEmpty_iff, List.infix_nil]
  | cons c cs ih =>
    simp only [occursB, Bool.or_eq_true, List.isPrefixOf_iff_prefix, ih,
      List.infix_cons_iff]

theorem firstOcc_sound (pat : List Char) :
    ∀ l i, firstOcc pat l = some i → pat.isPrefixOf (List.drop i l) = true := by
  intro l
  induction l with
  | nil =>
    intro i h
    simp only [firstOcc] at h
    by_cases hp : pat.isEmpty = true
    · rw [if_pos hp] at h
      cases h
      simp [List.isPrefixOf_iff_prefix, List.isEmpty_iff.mp hp]
    · rw [if_neg hp] at h
      cases h
  | cons c cs ih =>
    intro i h
    simp only [firstOcc] at h
    by_cases hp : pat.isPrefixOf (c :: cs) = true
    · rw [if_pos hp] at h
      cases h
      simp only [List.drop_zero]
      exact hp
    · rw [if_neg hp] at h
      rcases Option.map_eq_some'.mp h with ⟨j, hj, rfl⟩
      simpa using ih j hj

/-- If the pattern occurs nowhere, `replaceAll` is the identity. -/
theorem replaceAll_of_not_occurs (old new : List Char) :
    ∀ text, ¬ old <:+: text → replaceAll old new text = text := by
  intro text
  induction text with
  | nil => intro _; rfl
  | cons c cs ih =>
    intro h
    rw [replaceAll_cons]
    have hp : old.isPrefixOf (c :: cs) ≠ true := by
      intro hb
      exact h (List.IsPrefix.isInfix (List.isPrefixOf_iff_prefix.mp hb))
    rw [if_neg (by simp [hp])]
    rw [ih (fun hin => h (List.infix_cons hin))]

/-- If the pattern occurs somewhere, the replacement text occurs in the
result of `replaceAll`. -/
theorem occurs_new_of_occurs (old new : List Char) (hne : old ≠ []) :
    ∀ text, old <:+: text → new <:+: replaceAll old new text := by
  intro text
  induction text with
  | nil =>
    intro h
    exact absurd (List.infix_nil.mp h) hne
  | cons c cs ih =>
    intro h
    rw [replaceAll_cons]
    by_cases hb : (!old.isEmpty && old.isPrefixOf (c :: cs)) = true
    · rw [if_pos hb]
      exact List.IsPrefix.isInfix (List.prefix_append new _)
    · rw [if_neg hb]
      have hnp : ¬ old <+: (c :: cs) := by
        intro hp
        apply hb
        simp [List.isPrefixOf_iff_prefix, hp, List.isEmpty_iff, hne]
      have : old <:+: cs := by
        rcases List.infix_cons_iff.mp h with h' | h'
        · exact absurd h' hnp
        · exact h'
      exact List.infix_cons (ih this)

/-- An infix of an append decomposes: it sits inside the left part,
inside the right part, or crosses the boundary, in which case a proper
non-empty prefix of it is a suffix of the left part and the matching
remainder is a prefix of the right part. -/
theorem occurs_append_cases {a x y : List Char} (h : a <:+: x ++ y) :
    a <:+: x ∨ a <:+: y ∨
      ∃ k, 0 < k ∧ k < a.length ∧ a.take k <:+ x ∧ a.drop k <+: y := by
  obtain ⟨s, t, hst⟩ := h
  by_cases hcase₁ : s.length + a.length ≤ x.length
  · left
    have hsx : s.length ≤ x.length := by omega
    have hdrop : a ++ t = x.drop s.length ++ y := by
      have h₁ : (s ++ (a ++ t)).drop s.length = a ++ t := List.drop_left s (a ++ t)
      have h₂ : (x ++ y).drop s.length = x.drop s.length ++ y := by
        rw [List.drop_append_eq_append_drop, Nat.sub_eq_zero_of_le hsx, List.drop_zero]
      rw [← h₂, ← hst]
      rw [← h₁]
      congr 1
      simp [List.append_assoc]
    have hlen : a.length ≤ (x.drop s.length).length := by
      simp only [List.length_drop]; omega
    have hpre : a <+: x.drop s.length ++ y := ⟨t, hdrop⟩
    have : a <+: x.drop s.length := by
      have htake := List.prefix_iff_eq_take.mp hpre
      rw [List.take_append_eq_append_take, Nat.sub_eq_zero_of_le hlen, List.take_zero,
        List.append_nil] at htake
      rw [htake]
      exact List.take_prefix _ _
    exact List.infix_iff_prefix_suffix.mpr ⟨x.drop s.length, this, List.drop_suffix _ _⟩
  · by_cases hcase₂ : x.length ≤ s.length
    · right; left
      have hdrop : a ++ t = y.drop (s.length - x.length) := by
        have h₁ : (s ++ (a ++ t)).drop s.length = a ++ t := List.drop_left s (a ++ t)
        have h₂ : (x ++ y).drop s.length = y.drop (s.length - x.length) := by
          rw [List.drop_append_eq_append_drop, List.drop_of_length_le hcase₂]
          simp
        rw [← h₂, ← hst, ← h₁]
        congr 1
        simp [List.append_assoc]
      exact List.infix_iff_prefix_suffix.mpr
        ⟨y.drop (s.length - x.length), ⟨t, hdrop⟩, List.drop_suffix _ _⟩
    · right; right
      push_neg at hcase₁ hcase₂
      refine ⟨x.length - s.length, by omega, by omega, ?_, ?_⟩
      · -- a.take (x.length - s.length) is exactly the tail of x after s
        have hsx : s.length ≤ x.length := le_of_lt hcase₂
        have hdrop : a ++ t = x.drop s.length ++ y := by
          have h₁ : (s ++ (a ++ t)).drop s.length = a ++ t := List.drop_left s (a ++ t)
          have h₂ : (x ++ y).drop s.length = x.drop s.length ++ y := by
            rw [List.drop_append_eq_append_drop, Nat.sub_eq_zero_of_le hsx, List.drop_zero]
          rw [← h₂, ← hst, ← h₁]
          congr 1
          simp [List.append_assoc]
        set k := x.length - s.length with hk
        have hklen : (x.drop s.length).length = k := by
          simp only [List.length_drop]
        have htk : (a ++ t).take k = a.take k := by
          rw [List.take_append_eq_append_take, Nat.sub_eq_zero_of_le (by omega),
            List.take_zero, List.append_nil]
        have htk₂ : (x.drop s.length ++ y).take k = x.drop s.length := by
          rw [List.take_append_eq_append_take, List.take_of_length_le (by omega),
            hklen, Nat.sub_self, List.take_zero, List.append_nil]
        have : a.take k = x.drop s.length := by rw [← htk, hdrop, htk₂]
        rw [this]
        exact List.drop_suffix _ _
      · have hsx : s.length ≤ x.length := le_of_lt hcase₂
        have hdrop : a ++ t = x.drop s.length ++ y := by
          have h₁ : (s ++ (a ++ t)).drop s.length = a ++ t := List.drop_left s (a ++ t)
          have h₂ : (x ++ y).drop s.length = x.drop s.length ++ y := by
            rw [List.drop_append_eq_append_drop, Nat.sub_eq_zero_of_le hsx, List.drop_zero]
          rw [← h₂, ← hst, ← h₁]
          congr 1
          simp [List.append_assoc]
        set k := x.length - s.length with hk
        have hklen : (x.drop s.length).length = k := by
          simp only [List.length_drop]
        have hdk : (a ++ t).drop k = a.drop k ++ t := by
          rw [List.drop_append_eq_append_drop, Nat.sub_eq_zero_of_le (by omega),
            List.drop_zero]
        have hdk₂ : (x.drop s.length ++ y).drop k = y := by
          rw [List.drop_append_eq_append_drop, List.drop_of_length_le (by omega), hklen,
            Nat.sub_self, List.drop_zero]
          simp
        exact ⟨t, by rw [← hdk₂, ← hdrop, hdk]⟩

/-- A prefix of an append that is no longer than the left part is a
prefix of the left part. -/
theorem prefix_append_shorter {u x y : List Char} (h : u <+: x ++ y)
    (hlen : u.length ≤ x.length) : u <+: x := by
  have htake := List.prefix_iff_eq_take.mp h
  rw [List.take_append_eq_append_take, Nat.sub_eq_zero_of_le hlen, List.take_zero,
    List.append_nil] at htake
  rw [htake]
  exact List.take_prefix _ _

/-- Core lemma behind the idempotence of the replace-based patches:
when the pattern does not occur in the replacement, no proper non-empty
suffix of the pattern prefixes the replacement, no proper non-empty
suffix of the replacement prefixes the pattern, and the replacement is
at least as long as the pattern, the pattern never occurs in the output
of `replaceAll`.  The second conjunct is the strengthened induction
hypothesis: a proper suffix of the pattern that prefixes the output
already prefixed the input. -/
theorem replaceAll_no_pattern_aux (old new : List Char)
    (hne : old ≠ []) (hlen : old.length ≤ new.length)
    (h2 : ¬ old <:+: new)
    (h3 : ∀ j, j < old.length → 0 < j → ¬ List.drop j old <+: new)
    (h4 : ∀ k, k < new.length → 0 < k → ¬ List.drop k new <+: old) :
    ∀ n text, text.length ≤ n →
      (¬ old <:+: replaceAll old new text) ∧
      (∀ j, j < old.length → 0 < j →
        List.drop j old <+: replaceAll old new text → List.drop j old <+: text) := by
  have hnil : (¬ old <:+: replaceAll old new []) ∧
      (∀ j, j < old.length → 0 < j →
        List.drop j old <+: replaceAll old new [] → List.drop j old <+: ([] : List Char)) := by
    constructor
    · rw [replaceAll_nil]
      exact fun h => hne (List.infix_nil.mp h)
    · intro j hj hj0 hpre
      rw [replaceAll_nil] at hpre
      have hd := List.prefix_nil.mp hpre
      exfalso
      have hlend : (List.drop j old).length = old.length - j := List.length_drop j old
      rw [hd] at hlend
      simp only [List.length_nil] at hlend
      omega
  intro n
  induction n with
  | zero =>
    intro text hlen0
    have htext : text = [] := List.eq_nil_of_length_eq_zero (Nat.le_zero.mp hlen0)
    subst htext
    exact hnil
  | succ n ih =>
    intro text hlen1
    cases text with
    | nil => exact hnil
    | cons c cs =>
      by_cases hp : old <+: (c :: cs)
      · -- the scan fires at this position
        obtain ⟨t, ht⟩ := hp
        have hb : (!old.isEmpty && old.isPrefixOf (c :: cs)) = true := by
          simp [List.isEmpty_iff, hne, List.isPrefixOf_iff_prefix]
          exact ⟨t, ht⟩
        have hdrop : List.drop old.length (c :: cs) = t := by
          rw [← ht, List.drop_left]
        have hlent : t.length ≤ n := by
          have := congrArg List.length ht
          simp only [List.length_append, List.length_cons] at this
          simp only [List.length_cons] at hlen1
          have hone : 1 ≤ old.length := by
            rcases old with _ | _
            · exact absurd rfl hne
            · simp
          omega
        have heq : replaceAll old new (c :: cs) = new ++ replaceAll old new t := by
          rw [replaceAll_cons, if_pos hb, hdrop]
        have IH := ih t hlent
        rw [heq]
        constructor
        · intro hocc
          rcases occurs_append_cases hocc with h | h | ⟨k, hk0, hklt, hsuf, hpre⟩
          · exact h2 h
          · exact IH.1 h
          · have htk : (old.take k).length = k := by
              simp only [List.length_take]
              omega
            have hkle : k ≤ new.length := by
              have := hsuf.length_le
              omega
            have heq2 := List.suffix_iff_eq_drop.mp hsuf
            rw [htk] at heq2
            apply h4 (new.length - k) (by omega) (by omega)
            rw [← heq2]
            exact List.take_prefix _ _
        · intro j hj hj0 hpre
          exfalso
          have hu : List.drop j old <+: new := by
            refine prefix_append_shorter hpre ?_
            simp only [List.length_drop]
            omega
          exact h3 j hj hj0 hu
      · -- the scan emits the head character
        have hb : (!old.isEmpty && old.isPrefixOf (c :: cs)) = false := by
          have : old.isPrefixOf (c :: cs) = false := by
            rw [Bool.eq_false_iff]
            intro hx
            exact hp (List.isPrefixOf_iff_prefix.mp hx)
          simp [this]
        have heq : replaceAll old new (c :: cs) = c :: replaceAll old new cs := by
          rw [replaceAll_cons, hb]
          simp
        have hlent : cs.length ≤ n := by
          simp only [List.length_cons] at hlen1
          omega
        have IH := ih cs hlent
        rw [heq]
        constructor
        · intro hocc
          rcases List.infix_cons_iff.mp hocc with hpre | hin
          · cases old with
            | nil => exact hne rfl
            | cons o otl =>
              rcases List.cons_prefix_cons.mp hpre with ⟨rfl, hotl⟩
              cases otl with
              | nil =>
                exact hp (List.cons_prefix_cons.mpr ⟨rfl, List.nil_prefix⟩)
              | cons o₁ otl' =>
                have h1lt : 1 < (o :: o₁ :: otl').length := by simp
                have hstep := IH.2 1 h1lt one_pos
                simp only [List.drop_one, List.tail_cons] at hstep
                have hcs := hstep hotl
                exact hp (List.cons_prefix_cons.mpr ⟨rfl, hcs⟩)
          · exact IH.1 hin
        · intro j hj hj0 hpre
          cases hu : List.drop j old with
          | nil =>
            exfalso
            have hlend : (List.drop j old).length = old.length - j := List.length_drop j old
            rw [hu] at hlend
            simp only [List.length_nil] at hlend
            omega
          | cons u₀ utl =>
            rw [hu] at hpre
            rcases List.cons_prefix_cons.mp hpre with ⟨rfl, hutl⟩
            have hdd : List.drop (j + 1) old = utl := by
              have : List.drop 1 (List.drop j old) = List.drop (j + 1) old :=
                List.drop_drop 1 j old
              rw [← this, hu]
              simp
            by_cases hjlast : j + 1 < old.length
            · have := IH.2 (j + 1) hjlast (by omega) (hdd ▸ hutl)
              exact List.cons_prefix_cons.mpr ⟨rfl, hdd ▸ this⟩
            · have hutlnil : utl = [] := by
                have := congrArg List.length hdd
                simp only [List.length_drop] at this
                have : utl.length = 0 := by omega
                exact List.eq_nil_of_length_eq_zero this
              rw [hutlnil]
              exact List.cons_prefix_cons.mpr ⟨rfl, List.nil_prefix⟩

/-- Under the non-interference conditions, the pattern does not occur
in the output of `replaceAll`, so a second application is a no-op. -/
theorem replaceAll_idem (old new : List Char)
    (hne : old ≠ []) (hlen : old.length ≤ new.length)
    (h2 : ¬ old <:+: new)
    (h3 : ∀ j, j < old.length → 0 < j → ¬ List.drop j old <+: new)
    (h4 : ∀ k, k < new.length → 0 < k → ¬ List.drop k new <+: old)
    (text : List Char) :
    replaceAll old new (replaceAll old new text) = replaceAll old new text :=
  replaceAll_of_not_occurs old new _
    ((replaceAll_no_pattern_aux old new hne hlen h2 h3 h4 text.length text le_rfl).1)

/-- Survival of a marker substring under an unrelated replacement:
if `sub` cannot overlap an occurrence of `old` in any way (neither
contains the other, no non-empty proper suffix of one prefixes the
other), then an occurrence of `sub` survives `replaceAll old new`. -/
theorem replaceAll_preserves_aux (sub old new : List Char)
    (hsne : sub ≠ []) (hone : old ≠ [])
    (hA : ¬ sub <:+: old) (hC : ¬ old <:+: sub)
    (hB : ∀ j, j < sub.length → 0 < j → ¬ List.drop j sub <+: old)
    (hD : ∀ k, k < old.length → 0 < k → ¬ List.drop k old <+: sub) :
    ∀ n text, text.length ≤ n →
      (sub <:+: text → sub <:+: replaceAll old new text) ∧
      (∀ j, j < sub.length → 0 < j →
        List.drop j sub <+: text → List.drop j sub <+: replaceAll old new text) := by
  intro n
  induction n with
  | zero =>
    intro text hlen0
    have htext : text = [] := List.eq_nil_of_length_eq_zero (Nat.le_zero.mp hlen0)
    subst htext
    constructor
    · intro h
      exact absurd (List.infix_nil.mp h) hsne
    · intro j hj hj0 hpre
      exfalso
      have hd := List.prefix_nil.mp hpre
      have hlend : (List.drop j sub).length = sub.length - j := List.length_drop j sub
      rw [hd] at hlend
      simp only [List.length_nil] at hlend
      omega
  | succ n ih =>
    intro text hlen1
    cases text with
    | nil =>
      constructor
      · intro h
        exact absurd (List.infix_nil.mp h) hsne
      · intro j hj hj0 hpre
        exfalso
        have hd := List.prefix_nil.mp hpre
        have hlend : (List.drop j sub).length = sub.length - j := List.length_drop j sub
        rw [hd] at hlend
        simp only [List.length_nil] at hlend
        omega
    | cons c cs =>
      by_cases hp : old <+: (c :: cs)
      · obtain ⟨t, ht⟩ := hp
        have hb : (!old.isEmpty && old.isPrefixOf (c :: cs)) = true := by
          simp [List.isEmpty_iff, hone, List.isPrefixOf_iff_prefix]
          exact ⟨t, ht⟩
        have hdrop : List.drop old.length (c :: cs) = t := by
          rw [← ht, List.drop_left]
        have hlent : t.length ≤ n := by
          have := congrArg List.length ht
          simp only [List.length_append, List.length_cons] at this
          simp only [List.length_cons] at hlen1
          have h1 : 1 ≤ old.length := by
            rcases old with _ | _
            · exact absurd rfl hone
            · simp
          omega
        have heq : replaceAll old new (c :: cs) = new ++ replaceAll old new t := by
          rw [replaceAll_cons, if_pos hb, hdrop]
        have IH := ih t hlent
        rw [heq]
        constructor
        · intro hs
          rw [← ht] at hs
          rcases occurs_append_cases hs with h | h | ⟨k, hk0, hklt, hsuf, hpre⟩
          · exact absurd h hA
          · obtain ⟨s', t', hst⟩ := IH.1 h
            exact ⟨new ++ s', t', by rw [← hst]; simp⟩
          · have htk : (sub.take k).length = k := by
              simp only [List.length_take]
              omega
            have hkle : k ≤ old.length := by
              have := hsuf.length_le
              omega
            exfalso
            by_cases hkeq : k = old.length
            · have hful : sub.take k = old := by
                have h5 := List.suffix_iff_eq_drop.mp hsuf
                rw [htk, hkeq, Nat.sub_self, List.drop_zero] at h5
                rw [hkeq]
                exact h5
              exact hC (List.IsPrefix.isInfix (hful ▸ ( List.take_prefix k sub)))
            · have heq2 := List.suffix_iff_eq_drop.mp hsuf
              rw [htk] at heq2
              apply hD (old.length - k) (by omega) (by omega)
              rw [← heq2]
              exact List.take_prefix _ _
        · intro j hj hj0 hpre
          exfalso
          rw [← ht] at hpre
          by_cases hul : (List.drop j sub).length ≤ old.length
          · exact hB j hj hj0 (prefix_append_shorter hpre hul)
          · have hou : old <+: List.drop j sub :=
              List.prefix_of_prefix_length_le (List.prefix_append old t) hpre (by omega)
            exact hC (List.infix_iff_prefix_suffix.mpr
              ⟨List.drop j sub, hou, List.drop_suffix j sub⟩)
      · have hb : (!old.isEmpty && old.isPrefixOf (c :: cs)) = false := by
          have : old.isPrefixOf (c :: cs) = false := by
            rw [Bool.eq_false_iff]
            intro hx
            exact hp (List.isPrefixOf_iff_prefix.mp hx)
          simp [this]
        have heq : replaceAll old new (c :: cs) = c :: replaceAll old new cs := by
          rw [replaceAll_cons, hb]
          simp
        have hlent : cs.length ≤ n := by
          simp only [List.length_cons] at hlen1
          omega
        have IH := ih cs hlent
        rw [heq]
        constructor
        · intro hs
          rcases List.infix_cons_iff.mp hs with hspre | hin
          · cases sub with
            | nil => exact absurd rfl hsne
            | cons s₀ stl =>
              rcases List.cons_prefix_cons.mp hspre with ⟨rfl, hstl⟩
              cases stl with
              | nil =>
                exact List.IsPrefix.isInfix
                  (List.cons_prefix_cons.mpr ⟨rfl, List.nil_prefix⟩)
              | cons s₁ stl' =>
                have h1lt : 1 < (s₀ :: s₁ :: stl').length := by simp
                have hstep := IH.2 1 h1lt one_pos
                simp only [List.drop_one, List.tail_cons] at hstep
                exact List.IsPrefix.isInfix
                  (List.cons_prefix_cons.mpr ⟨rfl, hstep hstl⟩)
          · exact List.infix_cons (IH.1 hin)
        · intro j hj hj0 hpre
          cases hu : List.drop j sub with
          | nil =>
            exfalso
            have hlend : (List.drop j sub).length = sub.length - j := List.length_drop j sub
            rw [hu] at hlend
            simp only [List.length_nil] at hlend
            omega
          | cons u₀ utl =>
            rw [hu] at hpre
            rcases List.cons_prefix_cons.mp hpre with ⟨rfl, hutl⟩
            have hdd : List.drop (j + 1) sub = utl := by
              have : List.drop 1 (List.drop j sub) = List.drop (j + 1) sub :=
                List.drop_drop 1 j sub
              rw [← this, hu]
              simp
            by_cases hjlast : j + 1 < sub.length
            · have := IH.2 (j + 1) hjlast (by omega) (hdd ▸ hutl)
              exact List.cons_prefix_cons.mpr ⟨rfl, hdd ▸ this⟩
            · have hutlnil : utl = [] := by
                have := congrArg List.length hdd
                simp only [List.length_drop] at this
                have : utl.length = 0 := by omega
                exact List.eq_nil_of_length_eq_zero this
              rw [hutlnil]
              exact List.cons_prefix_cons.mpr ⟨rfl, List.nil_prefix⟩

/-- Wrapper: an occurrence of a non-overlapping marker survives
`replaceAll`. -/
theorem replaceAll_preserves (sub old new : List Char)
    (hsne : sub ≠ []) (hone : old ≠ [])
    (hA : ¬ sub <:+: old) (hC : ¬ old <:+: sub)
    (hB : ∀ j, j < sub.length → 0 < j → ¬ List.drop j sub <+: old)
    (hD : ∀ k, k < old.length → 0 < k → ¬ List.drop k old <+: sub)
    (text : List Char) (h : sub <:+: text) :
    sub <:+: replaceAll old new text :=
  (replaceAll_preserves_aux sub old new hsne hone hA hC hB hD
    text.length text le_rfl).1 h

/-- When the pattern occurs exactly once — at the seam of the given
decomposition — `replaceAll` rewrites that single occurrence and leaves
both surrounding segments untouched. -/
theorem replaceAll_single (old new s₀ s₁ : List Char) (hne : old ≠ [])
    (h₀ : ∀ j, j < s₀.length → ¬ old <+: List.drop j (s₀ ++ old ++ s₁))
    (h₁ : ¬ old <:+: s₁) :
    replaceAll old new (s₀ ++ old ++ s₁) = s₀ ++ new ++ s₁ := by
  induction s₀ with
  | nil =>
    simp only [List.nil_append]
    cases old with
    | nil => exact absurd rfl hne
    | cons o otl =>
      have hb : (!(o :: otl).isEmpty && (o :: otl).isPrefixOf ((o :: otl) ++ s₁)) = true := by
        simp [List.isPrefixOf_iff_prefix]
      rw [show (o :: otl) ++ s₁ = o :: (otl ++ s₁) from rfl] at hb ⊢
      rw [replaceAll_cons, if_pos hb]
      have hdrop : List.drop (o :: otl).length (o :: (otl ++ s₁)) = s₁ := by
        rw [show o :: (otl ++ s₁) = (o :: otl) ++ s₁ from rfl, List.drop_left]
      rw [hdrop, replaceAll_of_not_occurs _ _ _ h₁]
  | cons c s₀' ihs =>
    have hstep : (c :: s₀') ++ old ++ s₁ = c :: (s₀' ++ old ++ s₁) := by simp
    rw [hstep]
    have hnp : ¬ old <+: c :: (s₀' ++ old ++ s₁) := by
      have := h₀ 0 (by simp)
      rw [List.drop_zero, hstep] at this
      exact this
    have hb : (!old.isEmpty && old.isPrefixOf (c :: (s₀' ++ old ++ s₁))) = false := by
      have hx : old.isPrefixOf (c :: (s₀' ++ old ++ s₁)) = false := by
        rw [Bool.eq_false_iff]
        intro hy
        exact hnp (List.isPrefixOf_iff_prefix.mp hy)
      rw [hx, Bool.and_false]
    rw [replaceAll_cons, hb]
    simp only [Bool.false_eq_true, if_false]
    rw [ihs ?_]
    · simp
    · intro j hj
      have := h₀ (j + 1) (by simp; omega)
      rw [hstep] at this
      simpa using this

/-- Prepending on the left preserves the prefix relation. -/
theorem prefix_append_left (l : List Char) {x y : List Char} (h : x <+: y) :
    l ++ x <+: l ++ y := by
  obtain ⟨t, rfl⟩ := h
  exact ⟨t, by rw [List.append_assoc]⟩

/-- Replacing a single character by a single character is a pointwise
map (the shape of `str.replace(" ", "-")`). -/
theorem replaceAll_singleton_map (a b : Char) :
    ∀ l : List Char, replaceAll [a] [b] l = l.map (fun c => if c = a then b else c) := by
  intro l
  induction l with
  | nil => rfl
  | cons c cs ih =>
    rw [replaceAll_cons]
    by_cases hac : a = c
    · subst hac
      have hb : (!([a] : List Char).isEmpty && ([a] : List Char).isPrefixOf (a :: cs)) = true := by
        simp [List.isPrefixOf_iff_prefix, List.cons_prefix_cons]
      rw [if_pos hb]
      simp only [List.length_cons, List.length_nil, List.drop_succ_cons, List.drop_zero]
      rw [ih]
      simp
    · have hb : (!([a] : List Char).isEmpty && ([a] : List Char).isPrefixOf (c :: cs)) = false := by
        have : ([a] : List Char).isPrefixOf (c :: cs) = false := by
          rw [Bool.eq_false_iff]
          intro hx
          rcases List.cons_prefix_cons.mp (List.isPrefixOf_iff_prefix.mp hx) with ⟨h, _⟩
          exact hac h
        simp [this]
      rw [hb]
      simp only [Bool.false_eq_true, if_false]
      rw [ih]
      have hcc : (if c = a then b else c) = c := if_neg (fun hy => hac hy.symm)
      simp [hcc]

theorem splitOnNl_ne_nil : ∀ l : List Char, splitOnNl l ≠ [] := by
  intro l
  induction l with
  | nil => simp [splitOnNl]
  | cons c cs ih =>
    unfold splitOnNl
    cases h : splitOnNl cs with
    | nil => simp
    | cons x xs =>
      by_cases hc : c = '\n' <;> simp [hc]

theorem fuse_ne_nil (xs ys : List (List Char)) (hx : xs ≠ []) (hy : ys ≠ []) :
    fuse xs ys ≠ [] := by
  match xs, ys with
  | [], ys => exact absurd rfl hx
  | [x], [] => exact absurd rfl hy
  | [x], y :: ys => simp [fuse]
  | x :: x' :: xs, ys => simp [fuse]

theorem splitOnNl_cons_nl (cs : List Char) :
    splitOnNl ('\n' :: cs) = [] :: splitOnNl cs := by
  simp only [splitOnNl]
  cases h : splitOnNl cs with
  | nil => exact absurd h (splitOnNl_ne_nil cs)
  | cons x xs => simp

theorem splitOnNl_cons_char (c : Char) (hc : c ≠ '\n') (cs : List Char) :
    ∀ x xs, splitOnNl cs = x :: xs → splitOnNl (c :: cs) = (c :: x) :: xs := by
  intro x xs h
  simp only [splitOnNl, h]
  simp [hc]

/-- Splitting a concatenation into lines: the line lists of the two
parts fused at the seam. -/
theorem splitOnNl_append : ∀ a b : List Char,
    splitOnNl (a ++ b) = fuse (splitOnNl a) (splitOnNl b) := by
  intro a
  induction a with
  | nil =>
    intro b
    cases h : splitOnNl b with
    | nil => exact absurd h (splitOnNl_ne_nil b)
    | cons y ys => simp [splitOnNl, fuse, h]
  | cons c a' ih =>
    intro b
    rw [show (c :: a') ++ b = c :: (a' ++ b) from rfl]
    cases hsa : splitOnNl a' with
    | nil => exact absurd hsa (splitOnNl_ne_nil a')
    | cons x xs =>
      by_cases hc : c = '\n'
      · subst hc
        rw [splitOnNl_cons_nl, splitOnNl_cons_nl, ih, hsa]
        cases hsb : splitOnNl b with
        | nil => exact absurd hsb (splitOnNl_ne_nil b)
        | cons y ys =>
          cases xs with
          | nil => simp [fuse]
          | cons x' xs' => simp [fuse]
      · have hab : splitOnNl (a' ++ b) = fuse (x :: xs) (splitOnNl b) := by
          rw [ih, hsa]
        cases hsb : splitOnNl b with
        | nil => exact absurd hsb (splitOnNl_ne_nil b)
        | cons y ys =>
          cases xs with
          | nil =>
            have h1 : splitOnNl (a' ++ b) = (x ++ y) :: ys := by
              rw [hab, hsb]
              simp [fuse]
            rw [splitOnNl_cons_char c hc _ _ _ h1, splitOnNl_cons_char c hc _ _ _ hsa]
            simp [fuse]
          | cons x' xs' =>
            have h1 : splitOnNl (a' ++ b) = x :: fuse (x' :: xs') (y :: ys) := by
              rw [hab, hsb]
              simp [fuse]
            rw [splitOnNl_cons_char c hc _ _ _ h1, splitOnNl_cons_char c hc _ _ _ hsa]
            simp [fuse]

/-- A newline-free text is a single line. -/
theorem splitOnNl_nlfree : ∀ l : List Char, '\n' ∉ l → splitOnNl l = [l] := by
  intro l
  induction l with
  | nil => intro _; rfl
  | cons c cs ih =>
    intro h
    have hc : c ≠ '\n' := fun hx => h (hx ▸ List.mem_cons_self c cs)
    have hcs : '\n' ∉ cs := fun hx => h (List.mem_cons_of_mem c hx)
    unfold splitOnNl
    rw [ih hcs]
    simp [hc]

/-- A line starting with at least three spaces is not an indent-2
block entry, whatever follows. -/
theorem isSvcLineB_indent3 (A X : List Char) (h : A.take 3 = [' ', ' ', ' ']) :
    isSvcLineB (A ++ X) = false := by
  have hlen : 3 ≤ A.length := by
    have := congrArg List.length h
    simp only [List.length_take, List.length_cons, List.length_nil] at this
    omega
  unfold isSvcLineB
  rw [List.take_append_of_le_length hlen, h]
  simp

/-- The line structure of the sqlite orchestration file: a single
`web` service with no database service and no named volume. -/
theorem composeSqlite_lines (cfg : Config) (hdb : cfg.db_type = .sqlite)
    (hs : '\n' ∉ cfg.slug) (hp : '\n' ∉ cfg.port) :
    splitOnNl (createDockerComposeContent cfg) =
      [[], "version: \"3.8\"".toList, [], "services:".toList, "  web:".toList,
       "    build: .".toList,
       "    command: gunicorn ".toList ++
         (cfg.slug ++ (".wsgi:application --bind 0.0.0.0:".toList ++ cfg.port)),
       "    volumes:".toList, "      - .:/app".toList, "    ports:".toList,
       "      - \"".toList ++ (cfg.port ++ (":".toList ++ (cfg.port ++ "\"".toList))),
       []] := by
  have hcc : createDockerComposeContent cfg =
      "\nversion: \"3.8\"\n\nservices:\n  web:\n    build: .\n    command: gunicorn ".toList ++
      (cfg.slug ++ (".wsgi:application --bind 0.0.0.0:".toList ++
      (cfg.port ++ ("\n    volumes:\n      - .:/app\n    ports:\n      - \"".toList ++
      (cfg.port ++ (":".toList ++
      (cfg.port ++
      "\"\n".toList))))))) := by
    simp [createDockerComposeContent, hdb]
  rw [hcc]
  have e0 : splitOnNl ("\nversion: \"3.8\"\n\nservices:\n  web:\n    build: .\n    command: gunicorn ".toList) =
      [[], "version: \"3.8\"".toList, [], "services:".toList, "  web:".toList,
       "    build: .".toList, "    command: gunicorn ".toList] := by decide
  have e1 : splitOnNl (".wsgi:application --bind 0.0.0.0:".toList) =
      [".wsgi:application --bind 0.0.0.0:".toList] := by decide
  have e2 : splitOnNl ("\n    volumes:\n      - .:/app\n    ports:\n      - \"".toList) =
      [[], "    volumes:".toList, "      - .:/app".toList, "    ports:".toList,
       "      - \"".toList] := by decide
  have e3 : splitOnNl (":".toList) = [":".toList] := by decide
  have e4 : splitOnNl ("\"\n".toList) = ["\"".toList, []] := by decide
  simp only [splitOnNl_append, splitOnNl_nlfree _ hs, splitOnNl_nlfree _ hp,
    e0, e1, e2, e3, e4]
  simp [fuse]

/-- The line structure of the postgres orchestration file: `web`,
`shell` and `db` services, the configured credentials in the `db`
environment, and the named volume `postgres_data`. -/
theorem composePostgres_lines (cfg : Config) (hdb : cfg.db_type = .postgresql)
    (hs : '\n' ∉ cfg.slug) (hp : '\n' ∉ cfg.port) (hn : '\n' ∉ cfg.db_name)
    (hu : '\n' ∉ cfg.db_user) (hw : '\n' ∉ cfg.db_password) :
    splitOnNl (createDockerComposeContent cfg) =
      [[], "version: \"3.8\"".toList, [], "services:".toList, "  web:".toList,
       "    build: .".toList,
       "    command: bash -c \"python manage.py collectstatic --noinput && python manage.py migrate && gunicorn ".toList ++
         (cfg.slug ++ (".wsgi:application --bind 0.0.0.0:".toList ++
           (cfg.port ++ "\"".toList))),
       "    volumes:".toList, "      - ./backend:/app/backend".toList,
       "      - ./static:/app/static".toList, "    ports:".toList,
       "      - \"".toList ++ (cfg.port ++ (":".toList ++ (cfg.port ++ "\"".toList))),
       "    environment:".toList, "      - PYTHONUNBUFFERED=1".toList,
       "      - DJANGO_SETTINGS_MODULE=".toList ++ (cfg.slug ++ ".settings".toList),
       "    depends_on:".toList, "      - db".toList, "  shell:".toList,
       "    build: .".toList, "    volumes:".toList, "      - .:/app".toList,
       "    environment:".toList,
       "      - DJANGO_SETTINGS_MODULE=".toList ++ (cfg.slug ++ ".settings".toList),
       "    command: [\"python\", \"manage.py\", \"shell_plus\"]".toList, [],
       "  db:".toList, "    image: postgres:13".toList, "    environment:".toList,
       "      POSTGRES_DB: ".toList ++ cfg.db_name,
       "      POSTGRES_USER: ".toList ++ cfg.db_user,
       "      POSTGRES_PASSWORD: ".toList ++ cfg.db_password,
       "    volumes:".toList,
       "      - postgres_data:/var/lib/postgresql/data/".toList, [],
       "volumes:".toList, "  postgres_data:".toList, []] := by
  have hcc : createDockerComposeContent cfg =
      "\nversion: \"3.8\"\n\nservices:\n  web:\n    build: .\n    command: bash -c \"python manage.py collectstatic --noinput && python manage.py migrate && gunicorn ".toList ++
      (cfg.slug ++ (".wsgi:application --bind 0.0.0.0:".toList ++
      (cfg.port ++ ("\"\n    volumes:\n      - ./backend:/app/backend\n      - ./static:/app/static\n    ports:\n      - \"".toList ++
      (cfg.port ++ (":".toList ++
      (cfg.port ++ ("\"\n    environment:\n      - PYTHONUNBUFFERED=1\n      - DJANGO_SETTINGS_MODULE=".toList ++
      (cfg.slug ++ (".settings\n    depends_on:\n      - db\n  shell:\n    build: .\n    volumes:\n      - .:/app\n    environment:\n      - DJANGO_SETTINGS_MODULE=".toList ++
      (cfg.slug ++ (".settings\n    command: [\"python\", \"manage.py\", \"shell_plus\"]\n\n  db:\n    image: postgres:13\n    environment:\n      POSTGRES_DB: ".toList ++
      (cfg.db_name ++ ("\n      POSTGRES_USER: ".toList ++
      (cfg.db_user ++ ("\n      POSTGRES_PASSWORD: ".toList ++
      (cfg.db_password ++
      "\n    volumes:\n      - postgres_data:/var/lib/postgresql/data/\n\nvolumes:\n  postgres_data:\n".toList))))))))))))))))) := by
    simp [createDockerComposeContent, hdb]
  rw [hcc]
  have e0 : splitOnNl ("\nversion: \"3.8\"\n\nservices:\n  web:\n    build: .\n    command: bash -c \"python manage.py collectstatic --noinput && python manage.py migrate && gunicorn ".toList) =
      [[], "version: \"3.8\"".toList, [], "services:".toList, "  web:".toList,
       "    build: .".toList,
       "    command: bash -c \"python manage.py collectstatic --noinput && python manage.py migrate && gunicorn ".toList] := by decide
  have e1 : splitOnNl (".wsgi:application --bind 0.0.0.0:".toList) =
      [".wsgi:application --bind 0.0.0.0:".toList] := by decide
  have e2 : splitOnNl ("\"\n    volumes:\n      - ./backend:/app/backend\n      - ./static:/app/static\n    ports:\n      - \"".toList) =
      ["\"".toList, "    volumes:".toList, "      - ./backend:/app/backend".toList,
       "      - ./static:/app/static".toList, "    ports:".toList,
       "      - \"".toList] := by decide
  have e3 : splitOnNl (":".toList) = [":".toList] := by decide
  have e4 : splitOnNl ("\"\n    environment:\n      - PYTHONUNBUFFERED=1\n      - DJANGO_SETTINGS_MODULE=".toList) =
      ["\"".toList, "    environment:".toList, "      - PYTHONUNBUFFERED=1".toList,
       "      - DJANGO_SETTINGS_MODULE=".toList] := by decide
  have e5 : splitOnNl (".settings\n    depends_on:\n      - db\n  shell:\n    build: .\n    volumes:\n      - .:/app\n    environment:\n      - DJANGO_SETTINGS_MODULE=".toList) =
      [".settings".toList, "    depends_on:".toList, "      - db".toList,
       "  shell:".toList, "    build: .".toList, "    volumes:".toList,
       "      - .:/app".toList, "    environment:".toList,
       "      - DJANGO_SETTINGS_MODULE=".toList] := by decide
  have e6 : splitOnNl (".settings\n    command: [\"python\", \"manage.py\", \"shell_plus\"]\n\n  db:\n    image: postgres:13\n    environment:\n      POSTGRES_DB: ".toList) =
      [".settings".toList,
       "    command: [\"python\", \"manage.py\", \"shell_plus\"]".toList, [],
       "  db:".toList, "    image: postgres:13".toList, "    environment:".toList,
       "      POSTGRES_DB: ".toList] := by decide
  have e7 : splitOnNl ("\n      POSTGRES_USER: ".toList) =
      [[], "      POSTGRES_USER: ".toList] := by decide
  have e8 : splitOnNl ("\n      POSTGRES_PASSWORD: ".toList) =
      [[], "      POSTGRES_PASSWORD: ".toList] := by decide
  have e9 : splitOnNl ("\n    volumes:\n      - postgres_data:/var/lib/postgresql/data/\n\nvolumes:\n  postgres_data:\n".toList) =
      [[], "    volumes:".toList,
       "      - postgres_data:/var/lib/postgresql/data/".toList, [],
       "volumes:".toList, "  postgres_data:".toList, []] := by decide
  simp only [splitOnNl_append, splitOnNl_nlfree _ hs, splitOnNl_nlfree _ hp,
    splitOnNl_nlfree _ hn, splitOnNl_nlfree _ hu, splitOnNl_nlfree _ hw,
    e0, e1, e2, e3, e4, e5, e6, e7, e8, e9]
  simp [fuse]

/-- A list differing from `A` in the first four characters is not
`A ++ X`, whatever `X` is. -/
theorem ne_append_of_take4 (v A X : List Char) (h4 : 4 ≤ A.length)
    (hne : v.take 4 ≠ A.take 4) : v ≠ A ++ X := by
  intro he
  apply hne
  rw [he, List.take_append_of_le_length h4]

/-- C6. Structural branch of the orchestration renderer.  For sqlite
the indent-2 block entries of the output are exactly `  web:` — one
service definition, no database service — and there is neither a
top-level `volumes:` line nor a `  db:` line, hence no named volume.
For postgresql they are exactly `  web:`, `  shell:`, `  db:` (three
service definitions including the database) plus `  postgres_data:`,
the named-volume entry under the top-level `volumes:` line that is
also present, and the `db` service environment carries the configured
credentials verbatim.  For scenario B the application-service command
embeds port 9000 and module path `shop.wsgi:application`. -/
theorem c6_compose_structure :
    (∀ cfg : Config, cfg.db_type = .sqlite → '\n' ∉ cfg.slug → '\n' ∉ cfg.port →
      (splitOnNl (createDockerComposeContent cfg)).filter isSvcLineB =
        [("  web:".toList)] ∧
      "volumes:".toList ∉ splitOnNl (createDockerComposeContent cfg) ∧
      "  db:".toList ∉ splitOnNl (createDockerComposeContent cfg)) ∧
    (∀ cfg : Config, cfg.db_type = .postgresql → '\n' ∉ cfg.slug → '\n' ∉ cfg.port →
      '\n' ∉ cfg.db_name → '\n' ∉ cfg.db_user → '\n' ∉ cfg.db_password →
      (splitOnNl (createDockerComposeContent cfg)).filter isSvcLineB =
        [("  web:".toList), ("  shell:".toList), ("  db:".toList),
         ("  postgres_data:".toList)] ∧
      ("      POSTGRES_DB: ".toList ++ cfg.db_name) ∈
        splitOnNl (createDockerComposeContent cfg) ∧
      ("      POSTGRES_USER: ".toList ++ cfg.db_user) ∈
        splitOnNl (createDockerComposeContent cfg) ∧
      ("      POSTGRES_PASSWORD: ".toList ++ cfg.db_password) ∈
        splitOnNl (createDockerComposeContent cfg) ∧
      "volumes:".toList ∈ splitOnNl (createDockerComposeContent cfg)) ∧
    occursB ("gunicorn shop.wsgi:application --bind 0.0.0.0:9000".toList)
      (createDockerComposeContent shopCfg) = true := by
  refine ⟨?_, ?_, by decide⟩
  · intro cfg hdb hs hp
    rw [composeSqlite_lines cfg hdb hs hp]
    have fcmd : isSvcLineB ("    command: gunicorn ".toList ++
        (cfg.slug ++ (".wsgi:application --bind 0.0.0.0:".toList ++ cfg.port))) = false :=
      isSvcLineB_indent3 _ _ (by decide)
    have fports : isSvcLineB ("      - \"".toList ++
        (cfg.port ++ (":".toList ++ (cfg.port ++ "\"".toList)))) = false :=
      isSvcLineB_indent3 _ _ (by decide)
    refine ⟨?_, ?_, ?_⟩
    · simp only [List.filter_cons, List.filter_nil, fcmd, fports,
        Bool.false_eq_true, if_false]
      decide
    · intro h
      simp only [List.mem_cons, List.not_mem_nil, or_false] at h
      rcases h with h|h|h|h|h|h|h|h|h|h|h|h
      case _ => exact absurd h (by decide)
      case _ => exact absurd h (by decide)
      case _ => exact absurd h (by decide)
      case _ => exact absurd h (by decide)
      case _ => exact absurd h (by decide)
      case _ => exact absurd h (by decide)
      case _ => exact absurd h (ne_append_of_take4 _ _ _ (by decide) (by decide))
      case _ => exact absurd h (by decide)
      case _ => exact absurd h (by decide)
      case _ => exact absurd h (by decide)
      case _ => exact absurd h (ne_append_of_take4 _ _ _ (by decide) (by decide))
      case _ => exact absurd h (by decide)
    · intro h
      simp only [List.mem_cons, List.not_mem_nil, or_false] at h
      rcases h with h|h|h|h|h|h|h|h|h|h|h|h
      case _ => exact absurd h (by decide)
      case _ => exact absurd h (by decide)
      case _ => exact absurd h (by decide)
      case _ => exact absurd h (by decide)
      case _ => exact absurd h (by decide)
      case _ => exact absurd h (by decide)
      case _ => exact absurd h (ne_append_of_take4 _ _ _ (by decide) (by decide))
      case _ => exact absurd h (by decide)
      case _ => exact absurd h (by decide)
      case _ => exact absurd h (by decide)
      case _ => exact absurd h (ne_append_of_take4 _ _ _ (by decide) (by decide))
      case _ => exact absurd h (by decide)
  · intro cfg hdb hs hp hn hu hw
    rw [composePostgres_lines cfg hdb hs hp hn hu hw]
    have fcmd : isSvcLineB ("    command: bash -c \"python manage.py collectstatic --noinput && python manage.py migrate && gunicorn ".toList ++
        (cfg.slug ++ (".wsgi:application --bind 0.0.0.0:".toList ++
          (cfg.port ++ "\"".toList)))) = false :=
      isSvcLineB_indent3 _ _ (by decide)
    have fports : isSvcLineB ("      - \"".toList ++
        (cfg.port ++ (":".toList ++ (cfg.port ++ "\"".toList)))) = false :=
      isSvcLineB_indent3 _ _ (by decide)
    have fdsm : isSvcLineB ("      - DJANGO_SETTINGS_MODULE=".toList ++
        (cfg.slug ++ ".settings".toList)) = false :=
      isSvcLineB_indent3 _ _ (by decide)
    have fdb : isSvcLineB ("      POSTGRES_DB: ".toList ++ cfg.db_name) = false :=
      isSvcLineB_indent3 _ _ (by decide)
    have fus : isSvcLineB ("      POSTGRES_USER: ".toList ++ cfg.db_user) = false :=
      isSvcLineB_indent3 _ _ (by decide)
    have fpw : isSvcLineB ("      POSTGRES_PASSWORD: ".toList ++ cfg.db_password) = false :=
      isSvcLineB_indent3 _ _ (by decide)
    refine ⟨?_, ?_, ?_, ?_, ?_⟩
    · simp only [List.filter_cons, List.filter_nil, fcmd, fports, fdsm, fdb, fus, fpw,
        Bool.false_eq_true, if_false]
      decide
    · repeat
        first
        | exact List.mem_cons_self _ _
        | apply List.mem_cons_of_mem
    · repeat
        first
        | exact List.mem_cons_self _ _
        | apply List.mem_cons_of_mem
    · repeat
        first
        | exact List.mem_cons_self _ _
        | apply List.mem_cons_of_mem
    · repeat
        first
        | exact List.mem_cons_self _ _
        | apply List.mem_cons_of_mem

/-- Witness for C6 at the scenario-B configuration. -/
theorem c6_compose_structure_witness :
    shopCfg.db_type = DbType.postgresql ∧ '\n' ∉ shopCfg.slug ∧ '\n' ∉ shopCfg.port ∧
    '\n' ∉ shopCfg.db_name ∧ '\n' ∉ shopCfg.db_user ∧ '\n' ∉ shopCfg.db_password ∧
    (splitOnNl (createDockerComposeContent shopCfg)).filter isSvcLineB =
      [("  web:".toList), ("  shell:".toList), ("  db:".toList),
       ("  postgres_data:".toList)] :=
  ⟨rfl, by decide, by decide, by decide, by decide, by decide,
    (c6_compose_structure.2.1 shopCfg rfl (by decide) (by decide) (by decide)
      (by decide) (by decide)).1⟩

/-- A block found by the regex search is an occurrence in the text and
is non-empty. -/
theorem findAppsBlock_sound (c block : List Char) (h : findAppsBlock c = some block) :
    block <:+: c ∧ block ≠ [] := by
  unfold findAppsBlock at h
  cases hfo : firstOcc IA_HEADER c with
  | none =>
    rw [hfo] at h
    cases h
  | some i =>
    rw [hfo] at h
    simp only [] at h
    cases hfo2 : firstOcc ([']']) (List.drop (i + IA_HEADER.length) c) with
    | none =>
      rw [hfo2] at h
      cases h
    | some j =>
      rw [hfo2] at h
      cases h
      have hp := firstOcc_sound IA_HEADER c i hfo
      have hpre : IA_HEADER <+: List.drop i c := List.isPrefixOf_iff_prefix.mp hp
      obtain ⟨t, ht⟩ := hpre
      have hrest : List.drop (i + IA_HEADER.length) c = t := by
        rw [← List.drop_drop, ← ht, List.drop_left]
      constructor
      · have hb : (IA_HEADER ++ List.take (j + 1) (List.drop (i + IA_HEADER.length) c)) <+:
            List.drop i c := by
          rw [hrest, ← ht]
          exact prefix_append_left IA_HEADER ( List.take_prefix (j + 1) t)
        exact List.infix_iff_prefix_suffix.mpr ⟨List.drop i c, hb, List.drop_suffix i c⟩
      · intro habs
        rw [List.append_eq_nil] at habs
        exact absurd habs.1 (by decide)

/-- C1. Idempotence of every patch: re-applying the settings-file
transformation (which fuses the dependency-list injection, the engine
and connection-parameter swaps and the static-root addition behind the
`django_extensions` already-applied guard) is a no-op on any content,
re-applying the entry-point module-path rewrite (wsgi.py and asgi.py)
is a no-op on any content, and when the already-applied predicate
holds the settings patch reports `SkippedAlreadyApplied` and leaves
the content unchanged.  The two hypotheses are decidable
non-interference conditions on the slug-derived patterns, checked by
`decide` in the witness. -/
theorem c1_patches_idempotent (cfg : Config)
    (hidem : ReplaceIdemOk (envOld cfg.slug) (envNew cfg.slug))
    (hpres : NoOverlap DE_MARK (wsgiAppOld cfg.slug)) :
    (∀ c, (updateSettingsContent cfg (updateSettingsContent cfg c).2).2 =
      (updateSettingsContent cfg c).2) ∧
    (∀ c, updateWsgiContent cfg (updateWsgiContent cfg c) = updateWsgiContent cfg c) ∧
    (∀ c, updateAsgiContent cfg (updateAsgiContent cfg c) = updateAsgiContent cfg c) ∧
    (∀ c, occursB IA_MARK c = true → occursB DE_MARK c = true →
      updateSettingsContent cfg c = (.skippedAlreadyApplied, c)) := by
  obtain ⟨hne, hlen, hocc, hsufold, hsufnew⟩ := hidem
  have hwsgi : ∀ c, updateWsgiContent cfg (updateWsgiContent cfg c) = updateWsgiContent cfg c := by
    intro c
    exact replaceAll_idem _ _ hne hlen hocc hsufold hsufnew c
  have hstay : ∀ d, occursB DE_MARK d = true → (updateSettingsContent cfg d).2 = d := by
    intro d hd
    by_cases hIA : occursB IA_MARK d = true
    · simp [updateSettingsContent, hIA, hd]
    · simp [updateSettingsContent, hIA]
  refine ⟨?_, hwsgi, hwsgi, ?_⟩
  · intro c
    by_cases h1 : occursB IA_MARK c = true
    · by_cases h2 : occursB DE_MARK c = true
      · have he : updateSettingsContent cfg c = (.skippedAlreadyApplied, c) := by
          simp [updateSettingsContent, h1, h2]
        simp [he]
      · rw [Bool.not_eq_true] at h2
        cases hfb : findAppsBlock c with
        | none =>
          have he : updateSettingsContent cfg c = (.skippedNoAppsBlock, c) := by
            simp [updateSettingsContent, h1, h2, hfb]
          simp [he]
        | some block =>
          obtain ⟨hbin, hbne⟩ := findAppsBlock_sound c block hfb
          have h24 : updateSettingsContent cfg c = (.applied,
              replaceAll STATIC_OLD STATIC_NEW
                (replaceAll (wsgiAppOld cfg.slug) (wsgiAppNew cfg.slug)
                  (if cfg.db_type = .postgresql then
                    replaceAll NAME_OLD (nameNew cfg)
                      (replaceAll ENGINE_OLD ENGINE_NEW (replaceAll block NEW_APPS c))
                  else replaceAll block NEW_APPS c))) := by
            simp [updateSettingsContent, h1, h2, hfb]
          have hDEnew : DE_MARK <:+: NEW_APPS := by decide
          have hDEne : DE_MARK ≠ [] := by decide
          have hbase : DE_MARK <:+: replaceAll block NEW_APPS c :=
            hDEnew.trans (occurs_new_of_occurs block NEW_APPS hbne c hbin)
          have hdb : DE_MARK <:+:
              (if cfg.db_type = .postgresql then
                replaceAll NAME_OLD (nameNew cfg)
                  (replaceAll ENGINE_OLD ENGINE_NEW (replaceAll block NEW_APPS c))
              else replaceAll block NEW_APPS c) := by
            by_cases hpg : cfg.db_type = .postgresql
            · rw [if_pos hpg]
              have hov₁ : NoOverlap DE_MARK ENGINE_OLD := by decide
              have hov₂ : NoOverlap DE_MARK NAME_OLD := by decide
              obtain ⟨hA₁, hC₁, hB₁, hD₁⟩ := hov₁
              obtain ⟨hA₂, hC₂, hB₂, hD₂⟩ := hov₂
              exact replaceAll_preserves DE_MARK NAME_OLD (nameNew cfg) hDEne (by decide)
                hA₂ hC₂ hB₂ hD₂ _
                (replaceAll_preserves DE_MARK ENGINE_OLD ENGINE_NEW hDEne (by decide)
                  hA₁ hC₁ hB₁ hD₁ _ hbase)
            · rw [if_neg hpg]
              exact hbase
          have hwa : DE_MARK <:+:
              replaceAll (wsgiAppOld cfg.slug) (wsgiAppNew cfg.slug)
                (if cfg.db_type = .postgresql then
                  replaceAll NAME_OLD (nameNew cfg)
                    (replaceAll ENGINE_OLD ENGINE_NEW (replaceAll block NEW_APPS c))
                else replaceAll block NEW_APPS c) := by
            obtain ⟨hA, hC, hB, hD⟩ := hpres
            have hwne : wsgiAppOld cfg.slug ≠ [] := by
              simp [wsgiAppOld]
            exact replaceAll_preserves DE_MARK (wsgiAppOld cfg.slug) (wsgiAppNew cfg.slug)
              hDEne hwne hA hC hB hD _ hdb
          have hfinal : DE_MARK <:+: (updateSettingsContent cfg c).2 := by
            rw [h24]
            have hov₃ : NoOverlap DE_MARK STATIC_OLD := by decide
            obtain ⟨hA₃, hC₃, hB₃, hD₃⟩ := hov₃
            exact replaceAll_preserves DE_MARK STATIC_OLD STATIC_NEW hDEne (by decide)
              hA₃ hC₃ hB₃ hD₃ _ hwa
          exact hstay _ ((occursB_iff DE_MARK _).mpr hfinal)
    · rw [Bool.not_eq_true] at h1
      have he : updateSettingsContent cfg c = (.skippedNoInstalledApps, c) := by
        simp [updateSettingsContent, h1]
      simp [he]
  · intro c h1 h2
    simp [updateSettingsContent, h1, h2]

/-- Witness for C1 at the scenario-A configuration and the sample
settings file. -/
theorem c1_patches_idempotent_witness :
    ReplaceIdemOk (envOld demoCfg.slug) (envNew demoCfg.slug) ∧
    NoOverlap DE_MARK (wsgiAppOld demoCfg.slug) ∧
    (updateSettingsContent demoCfg (updateSettingsContent demoCfg sampleSettings).2).2 =
      (updateSettingsContent demoCfg sampleSettings).2 :=
  ⟨by decide, by decide,
    (c1_patches_idempotent demoCfg (by decide) (by decide)).1 sampleSettings⟩

/-- C4 counterexample. The patches use Python `str.replace`, which
rewrites every occurrence: on a settings file containing the
static-URL line twice, the applied patch inserts the static-root
declaration twice, so the pattern is not replaced "exactly once". -/
theorem c4_counterexample :
    countOcc STATIC_OLD doubleStatic = 2 ∧
    (updateSettingsContent demoCfg doubleStatic).1 = .applied ∧
    countOcc ("STATIC_ROOT = '/app/static'".toList)
      (updateSettingsContent demoCfg doubleStatic).2 = 2 :=
  ⟨by decide, by decide, by decide⟩

/-- C4 as amended: a patch rewrites every occurrence of its pattern;
when the pattern occurs exactly once (the seam of the given
decomposition), it is rewritten exactly once and the surrounding
content is byte-for-byte unchanged; and the static-asset replacement
is precisely the matched line with the root declaration appended
immediately after it, so in the single-occurrence case the root
declaration is appended exactly once. -/
theorem c4_amended (old new s₀ s₁ : List Char) (hne : old ≠ [])
    (h₀ : ∀ j, j < s₀.length → ¬ old <+: List.drop j (s₀ ++ old ++ s₁))
    (h₁ : ¬ old <:+: s₁) :
    replaceAll old new (s₀ ++ old ++ s₁) = s₀ ++ new ++ s₁ ∧
    STATIC_NEW = STATIC_OLD ++ "\nSTATIC_ROOT = '/app/static'".toList :=
  ⟨replaceAll_single old new s₀ s₁ hne h₀ h₁, by decide⟩

/-- Witness for the amended C4: a file with a single static-URL line
gets the root declaration appended exactly once. -/
theorem c4_amended_witness :
    (STATIC_OLD ≠ []) ∧
    (∀ j, j < ("A\n".toList : List Char).length →
      ¬ STATIC_OLD <+: List.drop j ("A\n".toList ++ STATIC_OLD ++ "\nB\n".toList)) ∧
    (¬ STATIC_OLD <:+: "\nB\n".toList) ∧
    replaceAll STATIC_OLD STATIC_NEW ("A\n".toList ++ STATIC_OLD ++ "\nB\n".toList) =
      "A\n".toList ++ STATIC_NEW ++ "\nB\n".toList :=
  ⟨by decide, by decide, by decide,
    (c4_amended STATIC_OLD STATIC_NEW ("A\n".toList) ("\nB\n".toList)
      (by decide) (by decide) (by decide)).1⟩

/-- C2 counterexample. The entry-point patch performs no existence
check: with `wsgi.py` missing, the run aborts with an uncaught
`FileNotFoundError` — the orchestration file is never written and the
asgi patch is never attempted (its file, whose pattern is present, is
left untouched) — rather than returning `SkippedMissingTarget` and
continuing. -/
theorem c2_counterexample :
    (runMain demoCfg id fsNoWsgi).2.2 = some (.fileNotFound (wsgiPath demoCfg)) ∧
    lookupFile (runMain demoCfg id fsNoWsgi).1 (composePath demoCfg) = none ∧
    lookupFile (runMain demoCfg id fsNoWsgi).1 (asgiPath demoCfg) =
      some (.good asgiSample) :=
  ⟨by decide, by decide, by decide⟩

/-- C2 as amended: only the settings patch checks for its target and
skips non-fatally (the run then continues through the remaining
patches and artifacts); the entry-point patches abort the whole run
when their target file is missing. -/
theorem c2_amended :
    (∀ cfg fs, lookupFile fs (settingsPath cfg) = none →
      updateSettingsFile cfg fs = (.skippedMissingTarget, fs)) ∧
    (∀ cfg fs, lookupFile fs (wsgiPath cfg) = none →
      updateWsgiFile cfg fs = .error (.fileNotFound (wsgiPath cfg))) ∧
    ((runMain demoCfg id fsNoSettings).2.1 = .skippedMissingTarget ∧
      (runMain demoCfg id fsNoSettings).2.2 = none ∧
      lookupFile (runMain demoCfg id fsNoSettings).1 (composePath demoCfg) =
        some (.good (createDockerComposeContent demoCfg))) := by
  refine ⟨?_, ?_, by decide, by decide, by decide⟩
  · intro cfg fs h
    simp [updateSettingsFile, h]
  · intro cfg fs h
    simp [updateWsgiFile, h]

/-- Witness for the amended C2: a missing settings file is a non-fatal
skip. -/
theorem c2_amended_witness :
    lookupFile emptyFS (settingsPath demoCfg) = none ∧
    updateSettingsFile demoCfg emptyFS = (.skippedMissingTarget, emptyFS) :=
  ⟨by decide, c2_amended.1 demoCfg emptyFS (by decide)⟩

/-- C3 counterexample. A read failure in the settings patch is caught:
the function returns and the run continues through the remaining
patches and artifact writes (the orchestration file is written), so
the failure is not fatal and the remaining patch sequence is not
aborted. -/
theorem c3_counterexample :
    (runMain demoCfg id fsBadSettings).2.1 = .failedRead ∧
    (runMain demoCfg id fsBadSettings).2.2 = none ∧
    lookupFile (runMain demoCfg id fsBadSettings).1 (composePath demoCfg) =
      some (.good (createDockerComposeContent demoCfg)) :=
  ⟨by decide, by decide, by decide⟩

/-- C3 as amended: the settings patch catches read errors, reports the
failure and lets the run continue; a read error in an entry-point
patch is an uncaught exception that aborts the remaining sequence,
with prior writes (the dependency manifest, the already-patched
settings file) left in place — no rollback. -/
theorem c3_amended :
    (∀ cfg fs, lookupFile fs (settingsPath cfg) = some .unreadable →
      updateSettingsFile cfg fs = (.failedRead, fs)) ∧
    (∀ cfg fs, lookupFile fs (wsgiPath cfg) = some .unreadable →
      updateWsgiFile cfg fs = .error (.ioError (wsgiPath cfg))) ∧
    ((runMain demoCfg id fsBadWsgi).2.2 = some (.ioError (wsgiPath demoCfg)) ∧
      (runMain demoCfg id fsBadWsgi).2.1 = .applied ∧
      lookupFile (runMain demoCfg id fsBadWsgi).1 (requirementsPath demoCfg) =
        some (.good requirementsContent) ∧
      lookupFile (runMain demoCfg id fsBadWsgi).1 (settingsPath demoCfg) =
        some (.good (updateSettingsContent demoCfg sampleSettings).2) ∧
      lookupFile (runMain demoCfg id fsBadWsgi).1 (composePath demoCfg) = none) := by
  refine ⟨?_, ?_, by decide, by decide, by decide, by decide, by decide⟩
  · intro cfg fs h
    simp [updateSettingsFile, h]
  · intro cfg fs h
    simp [updateWsgiFile, h]

/-- Witness for the amended C3: an unreadable settings file yields the
caught, non-fatal `failedRead` with the filesystem untouched. -/
theorem c3_amended_witness :
    lookupFile fsBadSettings (settingsPath demoCfg) = some .unreadable ∧
    updateSettingsFile demoCfg fsBadSettings = (.failedRead, fsBadSettings) :=
  ⟨by decide, c3_amended.1 demoCfg fsBadSettings (by decide)⟩

/-- C8. For a non-empty project name with a blank slug answer, the slug
is obtained by lowercasing the name and mapping each space to a hyphen
— a pure per-character map, so nothing is dropped or otherwise
sanitized; `deriveSlug "My Project" = "my-project"`; the derived slug
is non-empty whenever the name is; and ConfigModel construction uses
exactly this derivation when the slug answer strips to empty. -/
theorem c8_slug_derivation :
    deriveSlug ("My Project".toList) = "my-project".toList ∧
    (∀ name : List Char, name ≠ [] → deriveSlug name ≠ []) ∧
    (∀ name : List Char,
      deriveSlug name = name.map (fun c => if c.toLower = ' ' then '-' else c.toLower)) ∧
    (∀ inp cfg, promptProjectDetails inp = .ok cfg → pyStrip inp.slug = [] →
      cfg.slug = deriveSlug (pyStrip inp.project_name)) := by
  have hmap : ∀ name : List Char,
      deriveSlug name = name.map (fun c => if c.toLower = ' ' then '-' else c.toLower) := by
    intro name
    rw [deriveSlug, replaceAll_singleton_map, List.map_map]
    rfl
  refine ⟨by decide, ?_, hmap, ?_⟩
  · intro name hne
    rw [hmap]
    simp [hne]
  · intro inp cfg h hs
    simp only [promptProjectDetails] at h
    by_cases hn : pyStrip inp.project_name = []
    · rw [if_pos hn] at h
      cases h
    · rw [if_neg hn] at h
      simp only [hs, if_pos rfl] at h
      split at h <;> cases h <;> rfl

/-- Witness for C8 at the concrete name `"My Project"`. -/
theorem c8_slug_derivation_witness :
    ("My Project".toList : List Char) ≠ [] ∧ deriveSlug ("My Project".toList) ≠ [] :=
  ⟨by decide, c8_slug_derivation.2.1 ("My Project".toList) (by decide)⟩

/-- C9. When the stripped project name is empty, the program exits
with status 1 (modeled by `Outcome.exitedValidation`) and the
filesystem — files and directories alike — is exactly the initial one:
no directory is created, no file is written or patched, and the
external generator is never invoked. -/
theorem c9_missing_name (inp : RawInput) (gen : FS → FS) (fs0 : FS)
    (h : pyStrip inp.project_name = []) :
    runProgram inp gen fs0 = (fs0, .exitedValidation) := by
  simp [runProgram, promptProjectDetails, h]

/-- Witness for C9: blank name input against an empty filesystem. -/
theorem c9_missing_name_witness :
    pyStrip inpBlankName.project_name = [] ∧
    runProgram inpBlankName id emptyFS = (emptyFS, .exitedValidation) :=
  ⟨by decide, c9_missing_name inpBlankName id emptyFS (by decide)⟩

/-- C7. The database fields of the configuration are a function of the
effective database choice (the stripped answer, with the blank answer
defaulting to `"1"`): any effective choice other than `"1"` — however
invalid — selects sqlite with no error and empty credential fields,
while choice `"1"` selects postgresql with blank name and user
defaulting to the slug and blank password defaulting to the fixed
placeholder. -/
theorem c7_db_fields (inp : RawInput) (hname : pyStrip inp.project_name ≠ []) :
    (orDefault (pyStrip inp.db_choice) DEFAULT_DB_CHOICE ≠ "1".toList →
      ∃ cfg, promptProjectDetails inp = .ok cfg ∧ cfg.db_type = .sqlite ∧
        cfg.db_name = [] ∧ cfg.db_user = [] ∧ cfg.db_password = []) ∧
    (orDefault (pyStrip inp.db_choice) DEFAULT_DB_CHOICE = "1".toList →
      ∃ cfg, promptProjectDetails inp = .ok cfg ∧ cfg.db_type = .postgresql ∧
        (pyStrip inp.db_name = [] → cfg.db_name = cfg.slug) ∧
        (pyStrip inp.db_user = [] → cfg.db_user = cfg.slug) ∧
        (pyStrip inp.db_password = [] → cfg.db_password = DEFAULT_DB_PASSWORD)) := by
  constructor
  · intro hch
    simp only [promptProjectDetails, if_neg hname, if_neg hch]
    exact ⟨_, rfl, rfl, rfl, rfl, rfl⟩
  · intro hch
    simp only [promptProjectDetails, if_neg hname, if_pos hch]
    refine ⟨_, rfl, rfl, ?_, ?_, ?_⟩
    · intro hdb
      simp [orDefault, hdb]
    · intro hdb
      simp [orDefault, hdb]
    · intro hdb
      simp [orDefault, hdb]

/-- Witness for C7: the invalid choice `"3"` yields sqlite with empty
credential fields and no error. -/
theorem c7_db_fields_witness :
    pyStrip inpChoice3.project_name ≠ [] ∧
    orDefault (pyStrip inpChoice3.db_choice) DEFAULT_DB_CHOICE ≠ "1".toList ∧
    (∃ cfg, promptProjectDetails inpChoice3 = .ok cfg ∧ cfg.db_type = .sqlite ∧
      cfg.db_name = [] ∧ cfg.db_user = [] ∧ cfg.db_password = []) :=
  ⟨by decide, by decide,
    (c7_db_fields inpChoice3 (by decide)).1 (by decide)⟩

/-- C5. When the detection predicate of the dependency-list patch does
not match — `INSTALLED_APPS` absent from the file, or present but with
no bracketed list block for the regex — the settings patch returns a
distinct non-fatal skip and the content (and filesystem) is left
entirely unchanged: none of the other settings sub-patches runs. -/
theorem c5_detection_miss (cfg : Config) (c : List Char) :
    (occursB IA_MARK c = false →
      updateSettingsContent cfg c = (.skippedNoInstalledApps, c)) ∧
    (occursB IA_MARK c = true → occursB DE_MARK c = false → findAppsBlock c = none →
      updateSettingsContent cfg c = (.skippedNoAppsBlock, c)) ∧
    (∀ fs, lookupFile fs (settingsPath cfg) = some (.good c) →
      occursB IA_MARK c = false →
      updateSettingsFile cfg fs = (.skippedNoInstalledApps, fs)) ∧
    (PatchResult.skippedNoInstalledApps ≠ .skippedMissingTarget ∧
      PatchResult.skippedNoAppsBlock ≠ .skippedMissingTarget ∧
      PatchResult.skippedNoInstalledApps ≠ .skippedNoAppsBlock) := by
  refine ⟨?_, ?_, ?_, by decide, by decide, by decide⟩
  · intro h
    simp [updateSettingsContent, h]
  · intro h1 h2 h3
    simp [updateSettingsContent, h1, h2, h3]
  · intro fs hl h
    simp [updateSettingsFile, hl, updateSettingsContent, h]

/-- Witness for C5: a file with no `INSTALLED_APPS` at all is skipped
with the content unchanged. -/
theorem c5_detection_miss_witness :
    occursB IA_MARK ("x = 1\n".toList) = false ∧
    updateSettingsContent demoCfg ("x = 1\n".toList) =
      (.skippedNoInstalledApps, "x = 1\n".toList) :=
  ⟨by decide, (c5_detection_miss demoCfg ("x = 1\n".toList)).1 (by decide)⟩

/-- C10. The build file's container start command names the module
path `backend.{slug}.wsgi:application` while the orchestration file's
application-service command names `{slug}.wsgi:application`: both
paths occur in their respective artifacts and they are never equal. -/
theorem c10_module_paths (cfg : Config) :
    (("backend.".toList ++ (cfg.slug ++ ".wsgi:application".toList)) <:+:
      createDockerfileContent cfg) ∧
    ((cfg.slug ++ ".wsgi:application".toList) <:+: createDockerComposeContent cfg) ∧
    ("backend.".toList ++ (cfg.slug ++ ".wsgi:application".toList)) ≠
      (cfg.slug ++ ".wsgi:application".toList) := by
  refine ⟨?_, ?_, ?_⟩
  · -- the backend-prefixed path sits inside the Dockerfile CMD line
    have hmerge : ("\n\nCMD [\"gunicorn\", \"".toList : List Char) ++ "backend.".toList =
        "\n\nCMD [\"gunicorn\", \"backend.".toList := by decide
    have hpre : ("backend.".toList ++ (cfg.slug ++ ".wsgi:application".toList)) <+:
        "backend.".toList ++ (cfg.slug ++
          (".wsgi:application\", \"--bind\", \"0.0.0.0:".toList ++
            (cfg.port ++ "\"]\n".toList))) := by
      apply prefix_append_left
      apply prefix_append_left
      have : (".wsgi:application".toList : List Char) <+:
          ".wsgi:application\", \"--bind\", \"0.0.0.0:".toList := by decide
      exact this.trans (List.prefix_append _ _)
    refine List.infix_iff_prefix_suffix.mpr
      ⟨"backend.".toList ++ (cfg.slug ++
        (".wsgi:application\", \"--bind\", \"0.0.0.0:".toList ++
          (cfg.port ++ "\"]\n".toList))), hpre, ?_⟩
    have hsuf : ("backend.".toList ++ (cfg.slug ++
        (".wsgi:application\", \"--bind\", \"0.0.0.0:".toList ++
          (cfg.port ++ "\"]\n".toList)))) <:+
        ("\n\nCMD [\"gunicorn\", \"".toList ++
          ("backend.".toList ++ (cfg.slug ++
            (".wsgi:application\", \"--bind\", \"0.0.0.0:".toList ++
              (cfg.port ++ "\"]\n".toList))))) := List.suffix_append _ _
    refine hsuf.trans ?_
    rw [show ("\n\nCMD [\"gunicorn\", \"".toList ++
        ("backend.".toList ++ (cfg.slug ++
          (".wsgi:application\", \"--bind\", \"0.0.0.0:".toList ++
            (cfg.port ++ "\"]\n".toList))))) =
      ("\n\nCMD [\"gunicorn\", \"backend.".toList ++ (cfg.slug ++
        (".wsgi:application\", \"--bind\", \"0.0.0.0:".toList ++
          (cfg.port ++ "\"]\n".toList)))) from by
        rw [← hmerge, List.append_assoc]]
    show _ <:+ createDockerfileContent cfg
    simp only [createDockerfileContent]
    exact (List.suffix_append _ _).trans (List.suffix_append _ _)
  · -- the unprefixed path sits inside the compose command line
    rcases hdb : cfg.db_type with _ | _
    · have hpre : (cfg.slug ++ ".wsgi:application".toList) <+:
          cfg.slug ++ (".wsgi:application --bind 0.0.0.0:".toList ++
            (cfg.port ++ ("\"\n    volumes:\n      - ./backend:/app/backend\n      - ./static:/app/static\n    ports:\n      - \"".toList ++
            (cfg.port ++ (":".toList ++
            (cfg.port ++ ("\"\n    environment:\n      - PYTHONUNBUFFERED=1\n      - DJANGO_SETTINGS_MODULE=".toList ++
            (cfg.slug ++ (".settings\n    depends_on:\n      - db\n  shell:\n    build: .\n    volumes:\n      - .:/app\n    environment:\n      - DJANGO_SETTINGS_MODULE=".toList ++
            (cfg.slug ++ (".settings\n    command: [\"python\", \"manage.py\", \"shell_plus\"]\n\n  db:\n    image: postgres:13\n    environment:\n      POSTGRES_DB: ".toList ++
            (cfg.db_name ++ ("\n      POSTGRES_USER: ".toList ++
            (cfg.db_user ++ ("\n      POSTGRES_PASSWORD: ".toList ++
            (cfg.db_password ++
            "\n    volumes:\n      - postgres_data:/var/lib/postgresql/data/\n\nvolumes:\n  postgres_data:\n".toList)))))))))))))))) := by
        apply prefix_append_left
        have : (".wsgi:application".toList : List Char) <+:
            ".wsgi:application --bind 0.0.0.0:".toList := by decide
        exact this.trans (List.prefix_append _ _)
      refine List.infix_iff_prefix_suffix.mpr ⟨_, hpre, ?_⟩
      have hcc : createDockerComposeContent cfg =
          "\nversion: \"3.8\"\n\nservices:\n  web:\n    build: .\n    command: bash -c \"python manage.py collectstatic --noinput && python manage.py migrate && gunicorn ".toList ++
          (cfg.slug ++ (".wsgi:application --bind 0.0.0.0:".toList ++
          (cfg.port ++ ("\"\n    volumes:\n      - ./backend:/app/backend\n      - ./static:/app/static\n    ports:\n      - \"".toList ++
          (cfg.port ++ (":".toList ++
          (cfg.port ++ ("\"\n    environment:\n      - PYTHONUNBUFFERED=1\n      - DJANGO_SETTINGS_MODULE=".toList ++
          (cfg.slug ++ (".settings\n    depends_on:\n      - db\n  shell:\n    build: .\n    volumes:\n      - .:/app\n    environment:\n      - DJANGO_SETTINGS_MODULE=".toList ++
          (cfg.slug ++ (".settings\n    command: [\"python\", \"manage.py\", \"shell_plus\"]\n\n  db:\n    image: postgres:13\n    environment:\n      POSTGRES_DB: ".toList ++
          (cfg.db_name ++ ("\n      POSTGRES_USER: ".toList ++
          (cfg.db_user ++ ("\n      POSTGRES_PASSWORD: ".toList ++
          (cfg.db_password ++
          "\n    volumes:\n      - postgres_data:/var/lib/postgresql/data/\n\nvolumes:\n  postgres_data:\n".toList))))))))))))))))) := by
        simp [createDockerComposeContent, hdb]
      rw [hcc]
      exact List.suffix_append _ _
    · have hpre : (cfg.slug ++ ".wsgi:application".toList) <+:
          cfg.slug ++ (".wsgi:application --bind 0.0.0.0:".toList ++
            (cfg.port ++ ("\n    volumes:\n      - .:/app\n    ports:\n      - \"".toList ++
            (cfg.port ++ (":".toList ++
            (cfg.port ++
            "\"\n".toList)))))) := by
        apply prefix_append_left
        have : (".wsgi:application".toList : List Char) <+:
            ".wsgi:application --bind 0.0.0.0:".toList := by decide
        exact this.trans (List.prefix_append _ _)
      refine List.infix_iff_prefix_suffix.mpr ⟨_, hpre, ?_⟩
      have hcc : createDockerComposeContent cfg =
          "\nversion: \"3.8\"\n\nservices:\n  web:\n    build: .\n    command: gunicorn ".toList ++
          (cfg.slug ++ (".wsgi:application --bind 0.0.0.0:".toList ++
          (cfg.port ++ ("\n    volumes:\n      - .:/app\n    ports:\n      - \"".toList ++
          (cfg.port ++ (":".toList ++
          (cfg.port ++
          "\"\n".toList))))))) := by
        simp [createDockerComposeContent, hdb]
      rw [hcc]
      exact List.suffix_append _ _
  · intro h
    have hlen := congrArg List.length h
    simp only [List.length_append] at hlen
    have h8 : ("backend.".toList : List Char).length = 8 := by decide
    omega

end CreateProject
